import Mathlib

/-!
# go-fastdfs-client: wire header codec, file identifiers, connection pool, tasks, client

A shallow embedding of `common.go`, `conn_pool.go`, `storage.go`, `tracker.go` and
`client.go`.

* Bytes are natural numbers; every byte the code produces is reduced `% 256`.
* Go's `int64`/`int8` are integers; conversions from unsigned words are explicit.
* A Go `string` is its byte sequence.
* A `net.Conn` is a scripted endpoint: it records the argument of every `Write` call and
  answers `Write`/`Read` calls from a script of outcomes.
-/

namespace fdfs

/-! ## Constants (`common.go`, `conn_pool.go`) -/

def TrackerProtoCmdResp : Int := 100
def TrackerProtoCmdServiceQueryStoreWithoutGroupOne : Int := 101
def TrackerProtoCmdServiceQueryFetchOne : Int := 102
def StorageProtoCmdUploadFile : Int := 11
def StorageProtoCmdDeleteFile : Int := 12
def StorageProtoCmdDownloadFile : Int := 14
def GroupNameMaxLen : Int := 16
def ProtoCmdActiveTest : Int := 111
def MaxconnsLeast : Int := 5

/-! ## Errors -/

/-- The error values the embedded code can return. -/
inductive GoError where
  /-- transport error reported by the connection -/
  | transport : GoError
  /-- `io.EOF` -/
  | eof : GoError
  /-- `fmt.Errorf("recv resp status %d != 0", status)` -/
  | recvStatus (status : Nat) : GoError
  /-- `fmt.Errorf("invalid fildId")` -/
  | invalidFileID : GoError
  /-- `fmt.Errorf("reach maxConns %d", c.maxConns)` -/
  | reachMaxConns (maxConns : Int) : GoError
  /-- `fmt.Errorf("too little maxConns < %d", MaxconnsLeast)` -/
  | tooLittleMaxConns : GoError
  /-- `fmt.Errorf("file %q size is zero", fileName)` -/
  | fileSizeZero : GoError
  /-- `io.ErrUnexpectedEOF` -/
  | unexpectedEOF : GoError
  /-- `errors.New("config is nil")` -/
  | configNil : GoError
  /-- `fmt.Errorf("no connPool can be use")` -/
  | noConnPool : GoError
  /-- `fmt.Errorf("recv file id pkgLen <= GROUP_NAME_MAX_LEN")` -/
  | pkgLenTooShort : GoError
  /-- `fmt.Errorf("recv file id pkgLen > 100,can't be so long")` -/
  | pkgLenTooLong : GoError
  /-- `fmt.Errorf("recvStorageInfo pkgLen %d invaild", t.pkgLen)` -/
  | invalidPkgLen (pkgLen : Int) : GoError
  /-- `fmt.Errorf("StorageDownloadTask buffer < pkgLen can't recv")` -/
  | bufferTooSmall : GoError
  /-- `fmt.Errorf("TrackerTask RecvHeader %v", err)` -/
  | trackerRecvHeader (err : GoError) : GoError
  /-- `fmt.Errorf("StorageDownloadTask RecvRes %v", err)` -/
  | downloadRecvRes (err : GoError) : GoError
  /-- `fmt.Errorf("StorageDownloadTask RecvFile %s", err)` -/
  | downloadRecvFile (err : GoError) : GoError
  /-- `fmt.Errorf("StorageDownloadTask writeFromConnToBuffer %s", err)` -/
  | downloadToBuffer (err : GoError) : GoError
  /-- `fmt.Errorf("StorageDownloadTask RecvBuffer %s", err)` -/
  | downloadRecvBuffer (err : GoError) : GoError
  deriving DecidableEq, Repr

/-! ## Machine integers -/

/-- Conversion `uint64(v)` of an `int64`. -/
def uint64 (v : Int) : Nat := (v % 18446744073709551616).toNat

/-- Conversion `int64(u)` of an unsigned 64-bit word. -/
def int64 (u : Nat) : Int :=
  if u % 18446744073709551616 < 9223372036854775808 then ((u % 18446744073709551616 : Nat) : Int)
  else ((u % 18446744073709551616 : Nat) : Int) - 18446744073709551616

/-- Conversion `byte(v)` of an `int8`. -/
def byte (v : Int) : Nat := (v % 256).toNat

/-- Conversion `int8(b)` of a byte. -/
def int8 (b : Nat) : Int :=
  if b % 256 < 128 then ((b % 256 : Nat) : Int) else ((b % 256 : Nat) : Int) - 256

/-- The eight bytes `binary.BigEndian.PutUint64` stores for `v`. -/
def putUint64 (v : Nat) : List Nat :=
  [v / 72057594037927936 % 256, v / 281474976710656 % 256, v / 1099511627776 % 256,
   v / 4294967296 % 256, v / 16777216 % 256, v / 65536 % 256, v / 256 % 256, v % 256]

/-- The word `binary.BigEndian.Uint64` reads from the first eight bytes of `b`. -/
def getUint64 (b : List Nat) : Nat :=
  b.getD 7 0 % 256 + b.getD 6 0 % 256 * 256 + b.getD 5 0 % 256 * 65536
    + b.getD 4 0 % 256 * 16777216 + b.getD 3 0 % 256 * 4294967296
    + b.getD 2 0 % 256 * 1099511627776 + b.getD 1 0 % 256 * 281474976710656
    + b.getD 0 0 % 256 * 72057594037927936

/-- Value of a byte string read as a big-endian numeral. -/
def beValue (b : List Nat) : Nat := b.foldl (fun acc x => acc * 256 + x) 0

/-! ## Scripted connections (`net.Conn`) -/

/-- Outcome of one `Read` call offered by the peer: the bytes that arrive and the error
reported with them. -/
structure ReadResult where
  data : List Nat
  err : Option GoError
  deriving DecidableEq, Repr

/-- A transport connection: the outcomes of the coming `Read` and `Write` calls and the
record of what was written. -/
structure NetConn where
  /-- outcomes of the coming `Read` calls; when none is left the peer has closed (`io.EOF`) -/
  incoming : List ReadResult
  /-- outcomes of the coming `Write` calls (`none` is success); when none is left writes succeed -/
  writeErrs : List (Option GoError)
  /-- the argument of every `Write` call so far, oldest first -/
  sent : List (List Nat)
  /-- whether the transport has been closed -/
  closed : Bool
  deriving DecidableEq, Repr

/-- Call `conn.Write(b)`: the call is recorded and answered from the script. -/
def NetConn.Write (c : NetConn) (b : List Nat) : NetConn × Option GoError :=
  match c.writeErrs with
  | [] => ({ c with sent := c.sent ++ [b] }, none)
  | e :: rest => ({ c with sent := c.sent ++ [b], writeErrs := rest }, e)

/-- Call `conn.Read(buf)`: returns the connection, the buffer afterwards, the byte
count `n` and the error.  At most `len(buf)` bytes are copied to the front of `buf`; bytes
that did not fit stay queued for the next call. -/
def NetConn.Read (c : NetConn) (buf : List Nat) : NetConn × List Nat × Nat × Option GoError :=
  match c.incoming with
  | [] => (c, buf, 0, some GoError.eof)
  | r :: rest =>
    if r.data.length ≤ buf.length then
      ({ c with incoming := rest }, r.data ++ buf.drop r.data.length, r.data.length, r.err)
    else
      ({ c with incoming := { r with data := r.data.drop buf.length } :: rest },
        r.data.take buf.length, buf.length, none)

/-! ## Wire header (`common.go`) -/

/-- Record `header`. -/
structure header where
  pkgLen : Int
  cmd : Int
  status : Int
  deriving DecidableEq, Repr

/-- Method `(h *header) SendHeader(conn)`: `binary.Write` of an `int64` into a
`bytes.Buffer` cannot fail, so the only error is that of `conn.Write`. -/
def header.SendHeader (h : header) (conn : NetConn) : NetConn × Option GoError :=
  let buffer := putUint64 (uint64 h.pkgLen)
  let buffer := buffer ++ [byte h.cmd]
  let buffer := buffer ++ [byte h.status]
  conn.Write buffer

/-- Method `(h *header) RecvHeader(conn)`: returns the header afterwards, the connection
and the error.  The byte count returned by `conn.Read` is discarded, as in the source;
`h.pkgLen` is stored before the status byte is examined. -/
def header.RecvHeader (h : header) (conn : NetConn) : header × NetConn × Option GoError :=
  let buf := List.replicate 10 0
  match conn.Read buf with
  | (conn, _, _, some err) => (h, conn, some err)
  | (conn, buf, _, none) =>
    let h := { h with pkgLen := int64 (getUint64 buf) }
    let cmd := buf.getD 8 0
    let status := buf.getD 9 0
    if status ≠ 0 then (h, conn, some (GoError.recvStatus status))
    else ({ h with cmd := int8 cmd, status := int8 status }, conn, none)

/-! ## File identifiers (`common.go`) -/

/-- Bytes of an ASCII literal, for writing Go string constants. -/
def ascii (s : String) : List Nat := s.data.map Char.toNat

/-- Position of the first byte equal to `sep`, `none` standing for Go's `-1`
(`strings.Index` with a one-byte separator). -/
def Index : List Nat → Nat → Option Nat
  | [], _ => none
  | c :: cs, sep => if c = sep then some 0 else (Index cs sep).map (fun i => i + 1)

/-- Position of the last byte equal to `c`, `none` standing for Go's `-1`
(`strings.LastIndexByte`). -/
def LastIndexByte : List Nat → Nat → Option Nat
  | [], _ => none
  | x :: xs, c =>
    match LastIndexByte xs c with
    | some i => some (i + 1)
    | none => if x = c then some 0 else none

/-- Function `strings.SplitN(s, sep, n)` for a one-byte separator and `n ≥ 0`: at most `n`
pieces, the last one holding the unsplit remainder. -/
def SplitN (s : List Nat) (sep : Nat) : Nat → List (List Nat)
  | 0 => []
  | 1 => [s]
  | n + 2 =>
    match Index s sep with
    | none => [s]
    | some m => s.take m :: SplitN (s.drop (m + 1)) sep (n + 1)

/-- Function `splitFileID`: returns `(groupName, remoteFilename, err)`. -/
def splitFileID (fileID : List Nat) : List Nat × List Nat × Option GoError :=
  let str := SplitN fileID 47 2
  if str.length < 2 then ([], [], some GoError.invalidFileID)
  else (str.getD 0 [], str.getD 1 [], none)

/-! ## Connection pool (`conn_pool.go`) -/

/-- Record `pConn`: the embedded `net.Conn` is the address of a transport object.  The
back reference `pool` is left out: one pool is modelled, and `pConn.Close` calls `put` on
the pool the handle refers to. -/
structure pConn where
  Conn : Nat
  deriving DecidableEq, Repr

/-- Record `connPool` (lock and termination channel left out: every operation below runs
under the pool's lock). -/
structure connPool where
  /-- the idle list, front first -/
  conns : List pConn
  addr : List Nat
  maxConns : Int
  count : Int
  deriving DecidableEq, Repr

/-- The network: the transport objects opened so far, by address, and the outcomes of the
coming `net.DialTimeout` calls (`none` is a failed dial; when no outcome is left every
dial fails). -/
structure World where
  net : List NetConn
  dials : List (Option NetConn)
  deriving DecidableEq, Repr

/-- What an address with no transport object behind it behaves like: its writes fail. -/
def NetConn.absent : NetConn :=
  { incoming := [], writeErrs := [some GoError.transport], sent := [], closed := true }

/-- The transport object at address `a`. -/
def World.conn (w : World) (a : Nat) : NetConn := w.net.getD a NetConn.absent

/-- Store the transport object at address `a`. -/
def World.setConn (w : World) (a : Nat) (c : NetConn) : World := { w with net := w.net.set a c }

/-- Method `(c *connPool) makeConn()`. -/
def connPool.makeConn (c : connPool) (w : World) : connPool × World × Option GoError :=
  match w.dials with
  | [] => (c, w, some GoError.transport)
  | none :: ds => (c, { w with dials := ds }, some GoError.transport)
  | some conn :: ds =>
    ({ c with conns := c.conns ++ [{ Conn := w.net.length }], count := c.count + 1 },
      { net := w.net ++ [conn], dials := ds }, none)

/-- The loop `for i := 0; i < MaxconnsLeast; i++` of `newConnPool`, `n` rounds left. -/
def newConnPoolLoop : Nat → connPool → World → connPool × World × Option GoError
  | 0, c, w => (c, w, none)
  | n + 1, c, w =>
    match c.makeConn w with
    | (c, w, some err) => (c, w, some err)
    | (c, w, none) => newConnPoolLoop n c w

/-- Function `newConnPool`: returns the pool (`none` is `nil`), the network and the error.
The background goroutine only ever calls `CheckConns`, which is an operation of its own
here. -/
def newConnPool (addr : List Nat) (maxConns : Int) (w : World) :
    Option connPool × World × Option GoError :=
  if maxConns < MaxconnsLeast then (none, w, some GoError.tooLittleMaxConns)
  else
    let connPool : connPool := { conns := [], addr := addr, maxConns := maxConns, count := 0 }
    match newConnPoolLoop MaxconnsLeast.toNat connPool w with
    | (_, w, some err) => (none, w, some err)
    | (connPool, w, none) => (some connPool, w, none)

/-- One round of the loop of `CheckConns` on the idle element `e`: the network afterwards and
whether `e` stays in the list. -/
def CheckConnsProbe (e : pConn) (w : World) : World × Bool :=
  let header : header := { pkgLen := 0, cmd := ProtoCmdActiveTest, status := 0 }
  match header.SendHeader (w.conn e.Conn) with
  | (conn, some _) => (w.setConn e.Conn conn, false)
  | (conn, none) =>
    match header.RecvHeader conn with
    | (_, conn, some _) => (w.setConn e.Conn conn, false)
    | (header, conn, none) =>
      if header.cmd ≠ TrackerProtoCmdResp ∨ header.status ≠ 0 then (w.setConn e.Conn conn, false)
      else (w.setConn e.Conn conn, true)

/-- The loop of `CheckConns` over the idle list from element `e` on: the elements kept,
the count and the network afterwards. -/
def CheckConnsLoop : List pConn → Int → World → List pConn × Int × World
  | [], count, w => ([], count, w)
  | e :: next, count, w =>
    match CheckConnsProbe e w with
    | (w, false) => CheckConnsLoop next (count - 1) w
    | (w, true) =>
      match CheckConnsLoop next count w with
      | (kept, count, w) => (e :: kept, count, w)

/-- Method `(c *connPool) CheckConns()`; it always returns `nil`. -/
def connPool.CheckConns (c : connPool) (w : World) : connPool × World :=
  match CheckConnsLoop c.conns c.count w with
  | (kept, count, w) => ({ c with conns := kept, count := count }, w)

/-- Method `(c *connPool) get()`, with `fuel` bounding the rounds of its `for` loop.  The
first component is `none` while the loop is still running, else `(conn, err)`. -/
def connPool.get : Nat → connPool → World →
    Option (Option pConn × Option GoError) × connPool × World
  | 0, c, w => (none, c, w)
  | fuel + 1, c, w =>
    match c.conns with
    | [] =>
      if c.count ≥ c.maxConns then (some (none, some (GoError.reachMaxConns c.maxConns)), c, w)
      else
        match c.makeConn w with
        | (c, w, _) => connPool.get fuel c w
    | e :: rest => (some (some e, none), { c with conns := rest }, w)

/-- Method `(c *connPool) put(pConn)`. -/
def connPool.put (c : connPool) (p : pConn) : connPool × Option GoError :=
  ({ c with conns := c.conns ++ [p] }, none)

/-- Method `(c pConn) Close()`, on the pool the handle refers to. -/
def pConn.Close (p : pConn) (pool : connPool) : connPool × Option GoError := pool.put p

/-- A call on the pool. -/
inductive PoolOp where
  | get (fuel : Nat) : PoolOp
  | put (p : pConn) : PoolOp
  | CheckConns : PoolOp
  deriving DecidableEq, Repr

/-- Effect of one call on the pool and the network. -/
def PoolOp.apply : PoolOp → connPool × World → connPool × World
  | PoolOp.get fuel, (c, w) => (c.get fuel w).2
  | PoolOp.put p, (c, w) => ((p.Close c).1, w)
  | PoolOp.CheckConns, (c, w) => c.CheckConns w

/-- Effect of a sequence of calls, first call first. -/
def runOps (ops : List PoolOp) (s : connPool × World) : connPool × World :=
  ops.foldl (fun s op => op.apply s) s

/-- The data-model invariant `0 ≤ idle-count ≤ live-count ≤ capacity` of a pool. -/
@[reducible] def connPool.Inv (c : connPool) : Prop :=
  (0 : Int) ≤ (c.conns.length : Int) ∧ (c.conns.length : Int) ≤ c.count ∧ c.count ≤ c.maxConns

/-- A transport just opened, whose peer never answers and whose writes succeed. -/
def NetConn.fresh : NetConn := { incoming := [], writeErrs := [], sent := [], closed := false }

/-- A network with no transport yet, whose next `n` dials succeed and whose later dials
fail. -/
def World.dialing (n : Nat) : World := { net := [], dials := List.replicate n (some NetConn.fresh) }

/-! ## Upload request (`common.go`, `storage.go`) -/

/-- An opened `*os.File`: the size its `Stat` reports and its bytes. -/
structure File where
  size : Int
  content : List Nat
  deriving DecidableEq, Repr

/-- Record `fileInfo`. -/
structure fileInfo where
  fileSize : Int
  buffer : List Nat
  file : Option File
  fileExtName : List Nat
  deriving DecidableEq, Repr

/-- Function `newFileInfo`; `fs` answers `os.Open` followed by `Stat`. -/
def newFileInfo (fs : List Nat → Except GoError File) (fileName buffer fileExtName : List Nat) :
    Option fileInfo × Option GoError :=
  if fileName ≠ [] then
    match fs fileName with
    | Except.error err => (none, some err)
    | Except.ok file =>
      if file.size = 0 then (none, some GoError.fileSizeZero)
      else
        let fileExtName : List Nat :=
          match LastIndexByte fileName 46 with
          | none => []
          | some index =>
            let fileExtName := fileName.drop (index + 1)
            if fileExtName.length > 6 then fileExtName.take 6 else fileExtName
        (some { fileSize := file.size, buffer := [], file := some file,
                fileExtName := fileExtName }, none)
  else
    let fileExtName := if fileExtName.length > 6 then fileExtName.take 6 else fileExtName
    (some { fileSize := (buffer.length : Int), buffer := buffer, file := none,
            fileExtName := fileExtName }, none)

/-- A zeroed array `[width]byte` after `for i := 0; i < len(src); i++ { a[i] = src[i] }`;
`none` is the index-out-of-range fault of the store at `i = width`. -/
def fillArray (width : Nat) (src : List Nat) : Option (List Nat) :=
  if src.length ≤ width then some (src ++ List.replicate (width - src.length) 0) else none

/-- Record `storageUploadTask`. -/
structure storageUploadTask extends header where
  fileInfo : fileInfo
  storagePathIndex : Int
  fileID : List Nat
  deriving DecidableEq, Repr

/-- Method `(s *storageUploadTask) SendReq(conn)`: the task, the connection and the error
afterwards; `none` is a run-time fault.  `pkgLen` wraps as `int64` addition does.  Streaming
the file with `ReadFrom` is one write of its bytes. -/
def storageUploadTask.SendReq (s : storageUploadTask) (conn : NetConn) :
    Option (storageUploadTask × NetConn × Option GoError) :=
  let s := { s with cmd := StorageProtoCmdUploadFile }
  let s := { s with pkgLen := int64 (uint64 (s.fileInfo.fileSize + 15)) }
  match s.toheader.SendHeader conn with
  | (conn, some err) => some (s, conn, some err)
  | (conn, none) =>
    let buffer := [byte s.storagePathIndex]
    let buffer := buffer ++ putUint64 (uint64 s.fileInfo.fileSize)
    match fillArray 6 s.fileInfo.fileExtName with
    | none => none
    | some bufferFileExtName =>
      let buffer := buffer ++ bufferFileExtName
      match conn.Write buffer with
      | (conn, some err) => some (s, conn, some err)
      | (conn, none) =>
        match s.fileInfo.file with
        | some file =>
          match conn.Write file.content with
          | (conn, err) => some (s, conn, err)
        | none =>
          match conn.Write s.fileInfo.buffer with
          | (conn, err) => some (s, conn, err)

/-! ## Helpers that are not among the sources -/

/-- The helpers of the package whose source is not available, as the tasks call them:
`readCStrFromByteBuffer(buffer, size)` returns the rest of the buffer, the string and the
error; `writeFromConn(conn, writer, size)` returns the connection, the bytes handed to the
writer and the error; `writeFromConnToBuffer(conn, buffer, size)` returns the connection,
the buffer afterwards and the error.  The tasks are stated for any such helpers. -/
structure Util where
  readCStrFromByteBuffer : List Nat → Int → List Nat × List Nat × Option GoError
  writeFromConn : NetConn → Int → NetConn × List Nat × Option GoError
  writeFromConnToBuffer : NetConn → List Nat → Int → NetConn × List Nat × Option GoError

/-- Modelled from the spec: `readCStrFromByteBuffer` is not among the sources.  A
fixed-width string field is "trimmed at the first zero byte (or at most the declared width)
when decoding"; a buffer holding fewer bytes than the width is an error. -/
def readCStrFromByteBuffer (buffer : List Nat) (size : Int) :
    List Nat × List Nat × Option GoError :=
  if (buffer.length : Int) < size then (buffer, [], some GoError.unexpectedEOF)
  else (buffer.drop size.toNat, (buffer.take size.toNat).takeWhile (fun b => b ≠ 0), none)

/-- Modelled from the spec: `writeFromConn` and `writeFromConnToBuffer` are not among the
sources.  The response body is "exactly `payloadLength` bytes": the reads of the
connection are consumed until `need` bytes have arrived; a read error ends the transfer. -/
def readBody : List ReadResult → Nat → List ReadResult × List Nat × Option GoError
  | incoming, 0 => (incoming, [], none)
  | [], _ + 1 => ([], [], some GoError.eof)
  | r :: rest, need + 1 =>
    if r.data.length ≤ need + 1 then
      match r.err with
      | some err => (rest, r.data, some err)
      | none =>
        match readBody rest (need + 1 - r.data.length) with
        | (incoming, body, err) => (incoming, r.data ++ body, err)
    else
      ({ r with data := r.data.drop (need + 1) } :: rest, r.data.take (need + 1), none)

/-- Modelled from the spec: the three helpers, the body being read by `readBody` and, for
`writeFromConnToBuffer`, received "in place" at the front of the caller's buffer. -/
def Util.spec : Util :=
  { readCStrFromByteBuffer := fdfs.readCStrFromByteBuffer
    writeFromConn := fun conn size =>
      match readBody conn.incoming size.toNat with
      | (incoming, body, err) => ({ conn with incoming := incoming }, body, err)
    writeFromConnToBuffer := fun conn buffer size =>
      match readBody conn.incoming size.toNat with
      | (incoming, body, err) =>
        ({ conn with incoming := incoming }, body ++ buffer.drop body.length, err) }

/-! ## Tracker query (`tracker.go`) -/

/-- Record `trackerStorageInfo`. -/
structure trackerStorageInfo where
  groupName : List Nat
  ipAddr : List Nat
  port : Int
  storePathIndex : Int
  deriving DecidableEq, Repr

/-- Record `trackerTask`; the selector `t.groupName` is the task's own field, which hides
the one of the embedded `trackerStorageInfo`. -/
structure trackerTask extends header where
  groupName : List Nat
  remoteFilename : List Nat
  trackerStorageInfo : trackerStorageInfo
  deriving DecidableEq, Repr

/-- Method `(t *trackerTask) SendReq(conn)`; `none` is a run-time fault. -/
def trackerTask.SendReq (t : trackerTask) (conn : NetConn) :
    Option (trackerTask × NetConn × Option GoError) :=
  let t := if t.groupName ≠ [] then
      { t with pkgLen := int64 (uint64 (GroupNameMaxLen + (t.remoteFilename.length : Int))) }
    else t
  match t.toheader.SendHeader conn with
  | (conn, some err) => some (t, conn, some err)
  | (conn, none) =>
    if t.groupName ≠ [] then
      match fillArray 16 t.groupName with
      | none => none
      | some bufferGroupName =>
        let buffer := bufferGroupName ++ t.remoteFilename
        match conn.Write buffer with
        | (conn, some err) => some (t, conn, some err)
        | (conn, none) => some (t, conn, none)
    else some (t, conn, none)

/-- Function `binary.Read(buffer, binary.BigEndian, &v)` for an `int64`: the rest of the
buffer, the value and the error. -/
def readInt64 (buffer : List Nat) : List Nat × Int × Option GoError :=
  if buffer = [] then (buffer, 0, some GoError.eof)
  else if buffer.length < 8 then ([], 0, some GoError.unexpectedEOF)
  else (buffer.drop 8, int64 (getUint64 buffer), none)

/-- Method `(t *trackerTask) RecvRes(conn)`. -/
def trackerTask.RecvRes (u : Util) (t : trackerTask) (conn : NetConn) :
    trackerTask × NetConn × Option GoError :=
  match t.toheader.RecvHeader conn with
  | (h, conn, some err) => ({ t with toheader := h }, conn, some (GoError.trackerRecvHeader err))
  | (h, conn, none) =>
    let t := { t with toheader := h }
    if t.pkgLen ≠ 39 ∧ t.pkgLen ≠ 40 then (t, conn, some (GoError.invalidPkgLen t.pkgLen))
    else
      let buf := List.replicate t.pkgLen.toNat 0
      match conn.Read buf with
      | (conn, _, _, some err) => (t, conn, some err)
      | (conn, buf, _, none) =>
        match u.readCStrFromByteBuffer buf 16 with
        | (buffer, groupName, err) =>
          let t := { t with groupName := groupName }
          if err ≠ none then (t, conn, err)
          else
            match u.readCStrFromByteBuffer buffer 15 with
            | (buffer, ipAddr, err) =>
              let t := { t with trackerStorageInfo := { t.trackerStorageInfo with ipAddr := ipAddr } }
              if err ≠ none then (t, conn, err)
              else
                match readInt64 buffer with
                | (_, _, some err) => (t, conn, some err)
                | (buffer, port, none) =>
                  let t := { t with trackerStorageInfo := { t.trackerStorageInfo with port := port } }
                  if t.pkgLen = 40 then
                    match buffer with
                    | [] => (t, conn, some GoError.eof)
                    | storePathIndex :: _ =>
                      ({ t with trackerStorageInfo :=
                          { t.trackerStorageInfo with storePathIndex := int8 storePathIndex } },
                        conn, none)
                  else (t, conn, none)

/-! ## Storage tasks (`storage.go`) -/

/-- Method `(s *storageUploadTask) RecvRes(conn)`. -/
def storageUploadTask.RecvRes (u : Util) (s : storageUploadTask) (conn : NetConn) :
    storageUploadTask × NetConn × Option GoError :=
  match s.toheader.RecvHeader conn with
  | (h, conn, some err) => ({ s with toheader := h }, conn, some err)
  | (h, conn, none) =>
    let s := { s with toheader := h }
    if s.pkgLen ≤ 16 then (s, conn, some GoError.pkgLenTooShort)
    else if s.pkgLen > 100 then (s, conn, some GoError.pkgLenTooLong)
    else
      let buf := List.replicate s.pkgLen.toNat 0
      match conn.Read buf with
      | (conn, _, _, some err) => (s, conn, some err)
      | (conn, buf, _, none) =>
        match u.readCStrFromByteBuffer buf 16 with
        | (_, _, some err) => (s, conn, some err)
        | (buffer, groupName, none) =>
          match u.readCStrFromByteBuffer buffer (s.pkgLen - 16) with
          | (_, _, some err) => (s, conn, some err)
          | (_, remoteFileName, none) =>
            ({ s with fileID := groupName ++ [47] ++ remoteFileName }, conn, none)

/-- Record `storageDownloadTask`; `buffer = none` is the `nil` slice. -/
structure storageDownloadTask extends header where
  groupName : List Nat
  remoteFilename : List Nat
  offset : Int
  downloadBytes : Int
  localFilename : List Nat
  buffer : Option (List Nat)
  deriving DecidableEq, Repr

/-- Method `(s *storageDownloadTask) SendReq(conn)`; `none` is a run-time fault. -/
def storageDownloadTask.SendReq (s : storageDownloadTask) (conn : NetConn) :
    Option (storageDownloadTask × NetConn × Option GoError) :=
  let s := { s with cmd := StorageProtoCmdDownloadFile }
  let s := { s with pkgLen := int64 (uint64 ((s.remoteFilename.length : Int) + 32)) }
  match s.toheader.SendHeader conn with
  | (conn, some err) => some (s, conn, some err)
  | (conn, none) =>
    let buffer := putUint64 (uint64 s.offset)
    let buffer := buffer ++ putUint64 (uint64 s.downloadBytes)
    match fillArray 16 s.groupName with
    | none => none
    | some bufferGroupName =>
      let buffer := buffer ++ bufferGroupName
      let buffer := buffer ++ s.remoteFilename
      match conn.Write buffer with
      | (conn, some err) => some (s, conn, some err)
      | (conn, none) => some (s, conn, none)

/-- Method `(s *storageDownloadTask) recvFile(conn)`; `create` answers `os.Create` and
`flush` answers the final `writer.Flush()` for the bytes written; the local file itself is
not part of the state. -/
def storageDownloadTask.recvFile (u : Util) (create : List Nat → Option GoError)
    (flush : List Nat → Option GoError) (s : storageDownloadTask) (conn : NetConn) :
    NetConn × Option GoError :=
  match create s.localFilename with
  | some err => (conn, some err)
  | none =>
    match u.writeFromConn conn s.pkgLen with
    | (conn, _, some err) => (conn, some (GoError.downloadRecvFile err))
    | (conn, written, none) =>
      match flush written with
      | some err => (conn, some (GoError.downloadRecvFile err))
      | none => (conn, none)

/-- Method `(s *storageDownloadTask) recvBuffer(conn)`. -/
def storageDownloadTask.recvBuffer (u : Util) (s : storageDownloadTask) (conn : NetConn) :
    storageDownloadTask × NetConn × Option GoError :=
  match s.buffer with
  | some buffer =>
    if (buffer.length : Int) < s.pkgLen then (s, conn, some GoError.bufferTooSmall)
    else
      match u.writeFromConnToBuffer conn buffer s.pkgLen with
      | (conn, buffer, some err) =>
        ({ s with buffer := some buffer }, conn, some (GoError.downloadToBuffer err))
      | (conn, buffer, none) => ({ s with buffer := some buffer }, conn, none)
  | none =>
    match u.writeFromConn conn s.pkgLen with
    | (conn, _, some err) => (s, conn, some (GoError.downloadRecvBuffer err))
    | (conn, written, none) => ({ s with buffer := some written }, conn, none)

/-- Method `(s *storageDownloadTask) RecvRes(conn)`. -/
def storageDownloadTask.RecvRes (u : Util) (create : List Nat → Option GoError)
    (flush : List Nat → Option GoError) (s : storageDownloadTask) (conn : NetConn) :
    storageDownloadTask × NetConn × Option GoError :=
  match s.toheader.RecvHeader conn with
  | (h, conn, some err) => ({ s with toheader := h }, conn, some (GoError.downloadRecvRes err))
  | (h, conn, none) =>
    let s := { s with toheader := h }
    if s.localFilename ≠ [] then
      match s.recvFile u create flush conn with
      | (conn, some err) => (s, conn, some (GoError.downloadRecvRes err))
      | (conn, none) => (s, conn, none)
    else
      match s.recvBuffer u conn with
      | (s, conn, some err) => (s, conn, some (GoError.downloadRecvRes err))
      | (s, conn, none) => (s, conn, none)

/-- Record `storageDeleteTask`. -/
structure storageDeleteTask extends header where
  groupName : List Nat
  remoteFilename : List Nat
  deriving DecidableEq, Repr

/-- Method `(s *storageDeleteTask) SendReq(conn)`; `none` is a run-time fault. -/
def storageDeleteTask.SendReq (s : storageDeleteTask) (conn : NetConn) :
    Option (storageDeleteTask × NetConn × Option GoError) :=
  let s := { s with cmd := StorageProtoCmdDeleteFile }
  let s := { s with pkgLen := int64 (uint64 ((s.remoteFilename.length : Int) + 16)) }
  match s.toheader.SendHeader conn with
  | (conn, some err) => some (s, conn, some err)
  | (conn, none) =>
    match fillArray 16 s.groupName with
    | none => none
    | some bufferGroupName =>
      let buffer := bufferGroupName ++ s.remoteFilename
      match conn.Write buffer with
      | (conn, some err) => some (s, conn, some err)
      | (conn, none) => some (s, conn, none)

/-- Method `(s *storageDeleteTask) RecvRes(conn)`. -/
def storageDeleteTask.RecvRes (s : storageDeleteTask) (conn : NetConn) :
    storageDeleteTask × NetConn × Option GoError :=
  match s.toheader.RecvHeader conn with
  | (h, conn, err) => ({ s with toheader := h }, conn, err)

/-- A connection about to deliver a tracker response: a header with `pkgLen = n`, command
100 and status 0, then in one read the group `group1`, the address `10.0.0.1`, the port
23000 and a last byte 3. -/
def trackerResponse (n : Nat) : NetConn :=
  { incoming := [{ data := [0, 0, 0, 0, 0, 0, 0, n, 100, 0], err := none },
                 { data := ascii "group1" ++ List.replicate 10 0 ++ ascii "10.0.0.1"
                     ++ List.replicate 7 0 ++ [0, 0, 0, 0, 0, 0, 89, 216, 3], err := none }],
    writeErrs := [], sent := [], closed := false }

/-- A tracker query task as `queryStorageInfoWithTracker` builds it. -/
def newTrackerTask (cmd : Int) (groupName remoteFilename : List Nat) : trackerTask :=
  { toheader := { pkgLen := 0, cmd := cmd, status := 0 }, groupName := groupName,
    remoteFilename := remoteFilename,
    trackerStorageInfo := { groupName := [], ipAddr := [], port := 0, storePathIndex := 0 } }

/-! ## Client (`client.go`) -/

/-- Record `storageInfo`. -/
structure storageInfo where
  addr : List Nat
  storagePathIndex : Int
  deriving DecidableEq, Repr

/-- Record `Config`. -/
structure Config where
  TrackerAddrs : List (List Nat)
  MaxConn : Int
  deriving DecidableEq, Repr

/-- Record `Client` (lock left out).  A `map[string]*connPool` is a list of entries with
distinct keys; a pool is known by its position in the list, which is what the back reference
`pConn.pool` of a handle stands for. -/
structure Client where
  trackerPools : List (List Nat × connPool)
  storagePools : List (List Nat × connPool)
  config : Config
  deriving DecidableEq, Repr

/-- Position of the entry for `addr` in a map, if there is one. -/
def mapIndex : List (List Nat × connPool) → List Nat → Option Nat
  | [], _ => none
  | (a, _) :: rest, addr =>
    if a = addr then some 0 else (mapIndex rest addr).map (fun i => i + 1)

/-- Assignment `m[addr] = pool`. -/
def mapStore : List (List Nat × connPool) → List Nat → connPool → List (List Nat × connPool)
  | [], addr, pool => [(addr, pool)]
  | (a, p) :: rest, addr, pool =>
    if a = addr then (addr, pool) :: rest else (a, p) :: mapStore rest addr pool

/-- The loop `for _, addr := range config.TrackerAddrs` of `New`. -/
def NewLoop : List (List Nat) → Client → World → Option Client × World × Option GoError
  | [], client, w => (some client, w, none)
  | addr :: addrs, client, w =>
    match newConnPool addr client.config.MaxConn w with
    | (_, w, some err) => (none, w, some err)
    | (none, w, none) => (none, w, none)
    | (some trackerPool, w, none) =>
      NewLoop addrs { client with trackerPools := mapStore client.trackerPools addr trackerPool } w

/-- Function `New`; `config = none` is the `nil` pointer. -/
def New (config : Option Config) (w : World) : Option Client × World × Option GoError :=
  match config with
  | none => (none, w, some GoError.configNil)
  | some config =>
    NewLoop config.TrackerAddrs { trackerPools := [], storagePools := [], config := config } w

/-- What acquiring a connection from the client's pools comes to: the `get` is still in its
loop, or a handle `p` of the pool at position `pool` is returned, or an error, or `nil, nil`
(which no `get` returns). -/
inductive Acquired where
  | running : Acquired
  | conn (p : pConn) (pool : Nat) : Acquired
  | err (e : GoError) : Acquired
  | nothing : Acquired
  deriving DecidableEq, Repr

/-- The loop of `getTrackerConn` over the pools from position `i` on, `err` being the error
of the last `get`; each `get` runs at most `fuel` rounds. -/
def getTrackerConnLoop (fuel : Nat) :
    List (List Nat × connPool) → Nat → Option GoError → World →
      Acquired × List (List Nat × connPool) × World
  | [], _, err, w =>
    match err with
    | none => (Acquired.err GoError.noConnPool, [], w)
    | some e => (Acquired.err e, [], w)
  | (a, trackerPool) :: rest, i, _, w =>
    match trackerPool.get fuel w with
    | (none, trackerPool, w) => (Acquired.running, (a, trackerPool) :: rest, w)
    | (some (some p, none), trackerPool, w) => (Acquired.conn p i, (a, trackerPool) :: rest, w)
    | (some (none, none), trackerPool, w) => (Acquired.nothing, (a, trackerPool) :: rest, w)
    | (some (_, some e), trackerPool, w) =>
      match getTrackerConnLoop fuel rest (i + 1) (some e) w with
      | (r, rest, w) => (r, (a, trackerPool) :: rest, w)

/-- Method `(c *Client) getTrackerConn()`.  Go ranges over the map in an order it does not
fix; the order of the list `c.trackerPools` stands for the order of this one call, and what
is proved of it is proved for every client, hence for every order. -/
def Client.getTrackerConn (c : Client) (fuel : Nat) (w : World) : Acquired × Client × World :=
  match getTrackerConnLoop fuel c.trackerPools 0 none w with
  | (r, pools, w) => (r, { c with trackerPools := pools }, w)

/-- The call `pool.get()` on the pool at position `i` of a map. -/
def getAt (m : List (List Nat × connPool)) (i : Nat) (fuel : Nat) (w : World) :
    Acquired × List (List Nat × connPool) × World :=
  match m.get? i with
  | none => (Acquired.nothing, m, w)
  | some (a, pool) =>
    match pool.get fuel w with
    | (none, pool, w) => (Acquired.running, m.set i (a, pool), w)
    | (some (some p, none), pool, w) => (Acquired.conn p i, m.set i (a, pool), w)
    | (some (none, none), pool, w) => (Acquired.nothing, m.set i (a, pool), w)
    | (some (_, some e), pool, w) => (Acquired.err e, m.set i (a, pool), w)

/-- Method `(c *Client) getStorageConn(storageInfo)`. -/
def Client.getStorageConn (c : Client) (info : storageInfo) (fuel : Nat) (w : World) :
    Acquired × Client × World :=
  match mapIndex c.storagePools info.addr with
  | some i =>
    match getAt c.storagePools i fuel w with
    | (r, pools, w) => (r, { c with storagePools := pools }, w)
  | none =>
    match newConnPool info.addr c.config.MaxConn w with
    | (_, w, some err) => (Acquired.err err, c, w)
    | (none, w, none) => (Acquired.nothing, c, w)
    | (some storagePool, w, none) =>
      match getAt (c.storagePools ++ [(info.addr, storagePool)]) c.storagePools.length fuel w with
      | (r, pools, w) => (r, { c with storagePools := pools }, w)

/-- The call `p.Close()` on a handle of the pool at position `i` of a map. -/
def closeAt (m : List (List Nat × connPool)) (i : Nat) (p : pConn) :
    List (List Nat × connPool) :=
  match m.get? i with
  | none => m
  | some (a, pool) => m.set i (a, (p.Close pool).1)

/-- The interface `task` over a task record `τ`; `none` is a run-time fault, and
`SendReqFault`, `RecvResFault` give the task and the connection as the faulting call
leaves them. -/
structure task (τ : Type) where
  SendReq : τ → NetConn → Option (τ × NetConn × Option GoError)
  RecvRes : τ → NetConn → Option (τ × NetConn × Option GoError)
  SendReqFault : τ → NetConn → τ × NetConn
  RecvResFault : τ → NetConn → τ × NetConn

/-- How a call ends: its acquisition is still looping, it faulted, or it returned `err`. -/
inductive Exit where
  | running : Exit
  | fault : Exit
  | returned (err : Option GoError) : Exit
  deriving DecidableEq, Repr

/-- The body shared by `doTracker` and `doStorage` once the handle `p` is held: `SendReq`
then `RecvRes` on the transport of `p`.  A fault ends the body with the task and the
transport as the faulting call left them. -/
def runTask {τ : Type} (tk : task τ) (s : τ) (p : pConn) (w : World) : Exit × τ × World :=
  match tk.SendReq s (w.conn p.Conn) with
  | none =>
    match tk.SendReqFault s (w.conn p.Conn) with
    | (s, conn) => (Exit.fault, s, w.setConn p.Conn conn)
  | some (s, conn, some err) => (Exit.returned (some err), s, w.setConn p.Conn conn)
  | some (s, conn, none) =>
    match tk.RecvRes s ((w.setConn p.Conn conn).conn p.Conn) with
    | none =>
      match tk.RecvResFault s ((w.setConn p.Conn conn).conn p.Conn) with
      | (s, conn1) => (Exit.fault, s, (w.setConn p.Conn conn).setConn p.Conn conn1)
    | some (s, conn1, err) =>
      (Exit.returned err, s, (w.setConn p.Conn conn).setConn p.Conn conn1)

/-- Method `(c *Client) doTracker(task)`; the deferred `trackerConn.Close()` runs on every
way out of the body, a fault included. -/
def Client.doTracker {τ : Type} (c : Client) (tk : task τ) (s : τ) (fuel : Nat) (w : World) :
    Exit × τ × Client × World :=
  match c.getTrackerConn fuel w with
  | (Acquired.running, c, w) => (Exit.running, s, c, w)
  | (Acquired.err e, c, w) => (Exit.returned (some e), s, c, w)
  | (Acquired.nothing, c, w) => (Exit.fault, s, c, w)
  | (Acquired.conn trackerConn i, c, w) =>
    match runTask tk s trackerConn w with
    | (exit, s, w) => (exit, s, { c with trackerPools := closeAt c.trackerPools i trackerConn }, w)

/-- Method `(c *Client) doStorage(task, storageInfo)`; the deferred `storageConn.Close()`
runs on every way out of the body, a fault included. -/
def Client.doStorage {τ : Type} (c : Client) (tk : task τ) (s : τ) (info : storageInfo)
    (fuel : Nat) (w : World) : Exit × τ × Client × World :=
  match c.getStorageConn info fuel w with
  | (Acquired.running, c, w) => (Exit.running, s, c, w)
  | (Acquired.err e, c, w) => (Exit.returned (some e), s, c, w)
  | (Acquired.nothing, c, w) => (Exit.fault, s, c, w)
  | (Acquired.conn storageConn i, c, w) =>
    match runTask tk s storageConn w with
    | (exit, s, w) => (exit, s, { c with storagePools := closeAt c.storagePools i storageConn }, w)

/-- What a faulting `trackerTask.SendReq` leaves behind: the fault is the copy of the group
name, after `pkgLen` was set and the header written. -/
def trackerTask.SendReqFault (t : trackerTask) (conn : NetConn) : trackerTask × NetConn :=
  let t := if t.groupName ≠ [] then
      { t with pkgLen := int64 (uint64 (GroupNameMaxLen + (t.remoteFilename.length : Int))) }
    else t
  (t, (t.toheader.SendHeader conn).1)

/-- What a faulting `storageDeleteTask.SendReq` leaves behind: the fault is the copy of the
group name, after `cmd` and `pkgLen` were set and the header written. -/
def storageDeleteTask.SendReqFault (s : storageDeleteTask) (conn : NetConn) :
    storageDeleteTask × NetConn :=
  let s := { s with cmd := StorageProtoCmdDeleteFile }
  let s := { s with pkgLen := int64 (uint64 ((s.remoteFilename.length : Int) + 16)) }
  (s, (s.toheader.SendHeader conn).1)

/-- The tracker query as a `task`; its `RecvRes` has no fault. -/
def trackerTask.task (u : Util) : task trackerTask :=
  { SendReq := trackerTask.SendReq, RecvRes := fun t conn => some (t.RecvRes u conn),
    SendReqFault := trackerTask.SendReqFault, RecvResFault := fun t conn => (t, conn) }

/-- The delete request as a `task`; its `RecvRes` has no fault. -/
def storageDeleteTask.task : task storageDeleteTask :=
  { SendReq := storageDeleteTask.SendReq, RecvRes := fun s conn => some (s.RecvRes conn),
    SendReqFault := storageDeleteTask.SendReqFault, RecvResFault := fun s conn => (s, conn) }

/-- A transport just opened whose first write fails. -/
def NetConn.broken : NetConn :=
  { incoming := [], writeErrs := [some GoError.transport], sent := [], closed := false }

/-- The client `New` builds for the single tracker `t` with `MaxConn = 5`. -/
def oneTrackerClient : Client :=
  { trackerPools := [(ascii "t",
      { conns := [{ Conn := 0 }, { Conn := 1 }, { Conn := 2 }, { Conn := 3 }, { Conn := 4 }],
        addr := ascii "t", maxConns := 5, count := 5 })],
    storagePools := [],
    config := { TrackerAddrs := [ascii "t"], MaxConn := 5 } }

/-- The network after that construction when the first transport opened refuses its first
write. -/
def oneBrokenWorld : World :=
  { net := NetConn.broken :: List.replicate 4 NetConn.fresh, dials := [] }

/-- The liveness probe in the words of the specification, read off the transport alone:
the write of the active-test frame is accepted, and the next read delivers, without error, a
complete response header (ten bytes at least) whose command byte is 100 and whose status
byte is 0. -/
def probeAnswered (conn : NetConn) : Bool :=
  decide (conn.writeErrs.head?.join = none) &&
    match conn.incoming with
    | [] => false
    | r :: _ =>
      decide (r.err = none ∧ 10 ≤ r.data.length ∧ r.data.getD 8 0 = 100 ∧ r.data.getD 9 0 = 0)

/-- A transport whose peer answers one probe with nine bytes only, the last being 100: the
status byte never arrives. -/
def NetConn.shortAnswer : NetConn :=
  { incoming := [{ data := [0, 0, 0, 0, 0, 0, 0, 0, 100], err := none }], writeErrs := [],
    sent := [], closed := false }

/-- A transport whose peer answers one probe with command 100 and status 0. -/
def NetConn.answering : NetConn :=
  { incoming := [{ data := [0, 0, 0, 0, 0, 0, 0, 0, 100, 0], err := none }], writeErrs := [],
    sent := [], closed := false }

/-- A transport whose peer answers one probe with command 101. -/
def NetConn.wrongCommand : NetConn :=
  { incoming := [{ data := [0, 0, 0, 0, 0, 0, 0, 0, 101, 0], err := none }], writeErrs := [],
    sent := [], closed := false }

/-- A pool with the connections 0, 1, 2 idle and a fourth one checked out. -/
def sweepPool : connPool :=
  { conns := [{ Conn := 0 }, { Conn := 1 }, { Conn := 2 }], addr := [], maxConns := 5,
    count := 4 }

/-- A network where transport 0 answers the probe, transport 1 refuses the write, transport
2 answers with the wrong command and transport 3 (checked out) would answer. -/
def sweepWorld : World :=
  { net := [NetConn.answering, NetConn.broken, NetConn.wrongCommand, NetConn.answering],
    dials := [] }

/-- The writes that took a connection from `conn` to `conn1` form one frame announcing `n`
payload bytes: a first write of ten bytes whose leading eight bytes decode to `n`, followed
by writes of `n` bytes in all. -/
def Framed (conn conn1 : NetConn) (n : Int) : Prop :=
  ∃ (hdr : List Nat) (payload : List (List Nat)),
    conn1.sent = conn.sent ++ hdr :: payload ∧ hdr.length = 10 ∧
    int64 (getUint64 hdr) = n ∧ (payload.flatten.length : Int) = n

/-! ## Arithmetic of the codec -/

theorem putUint64_length (v : Nat) : (putUint64 v).length = 8 := rfl

theorem putUint64_lt (v : Nat) : ∀ b ∈ putUint64 v, b < 256 := by
  intro b hb
  simp only [putUint64, List.mem_cons, List.mem_singleton, List.not_mem_nil, or_false] at hb
  omega

theorem uint64_lt (v : Int) : uint64 v < 18446744073709551616 := by
  unfold uint64
  omega

theorem getUint64_putUint64 (v : Nat) (hv : v < 18446744073709551616) (tl : List Nat) :
    getUint64 (putUint64 v ++ tl) = v := by
  simp only [getUint64, putUint64, List.cons_append, List.nil_append, List.getD_cons_zero,
    List.getD_cons_succ]
  omega

theorem beValue_putUint64 (v : Nat) (hv : v < 18446744073709551616) :
    beValue (putUint64 v) = v := by
  simp only [beValue, putUint64, List.foldl_cons, List.foldl_nil]
  omega

theorem int64_uint64 (v : Int) (hlo : -9223372036854775808 ≤ v) (hhi : v < 9223372036854775808) :
    int64 (uint64 v) = v := by
  unfold int64 uint64
  split <;> omega

theorem int8_byte (v : Int) (hlo : -128 ≤ v) (hhi : v < 128) : int8 (byte v) = v := by
  unfold int8 byte
  split <;> omega

/-! ## Header codec -/

theorem Read_full (conn : NetConn) (bs : List Nat) (e : Option GoError) (rest : List ReadResult)
    (hread : conn.incoming = { data := bs, err := e } :: rest) (hlen : bs.length = 10) :
    conn.Read (List.replicate 10 0) = ({ conn with incoming := rest }, bs, 10, e) := by
  simp [NetConn.Read, hread, hlen]

theorem SendHeader_eq (h : header) (conn : NetConn) :
    h.SendHeader conn
      = conn.Write (putUint64 (uint64 h.pkgLen) ++ [byte h.cmd, byte h.status]) := by
  simp [header.SendHeader]

theorem Write_sent (conn : NetConn) (b : List Nat) : (conn.Write b).1.sent = conn.sent ++ [b] := by
  unfold NetConn.Write
  split <;> rfl

theorem Write_err (conn : NetConn) (b : List Nat) :
    (conn.Write b).2 = conn.writeErrs.head?.join := by
  unfold NetConn.Write
  split <;> simp_all

theorem RecvHeader_of_full_read (h : header) (conn : NetConn) (v : Nat) (c s : Nat)
    (rest : List ReadResult) (hv : v < 18446744073709551616)
    (hread : conn.incoming = { data := putUint64 v ++ [c, s], err := none } :: rest) :
    h.RecvHeader conn =
      if s ≠ 0 then ({ h with pkgLen := int64 v }, { conn with incoming := rest },
        some (GoError.recvStatus s))
      else ({ pkgLen := int64 v, cmd := int8 c, status := int8 s },
        { conn with incoming := rest }, none) := by
  have hr := Read_full conn _ none rest hread (by simp [putUint64])
  have hg : getUint64 (putUint64 v ++ [c, s]) = v := getUint64_putUint64 v hv _
  simp only [header.RecvHeader, hr, hg]
  simp [putUint64]

/-- C1: the ten bytes `SendHeader` writes for `{pkgLen = N, cmd = C, status = 0}`, delivered
to `RecvHeader` as one full read without error, decode to `{N, C, 0}` with no error; and a
ten-byte read whose last byte is nonzero makes `RecvHeader` return an error, whatever the
other bytes and whatever the read itself reports. -/
theorem header_round_trip (N C : Int)
    (hN : -9223372036854775808 ≤ N ∧ N < 9223372036854775808) (hC : -128 ≤ C ∧ C < 128) :
    (∀ (cw cr : NetConn) (h0 : header) (bs : List Nat) (rest : List ReadResult),
      (({ pkgLen := N, cmd := C, status := 0 } : header).SendHeader cw).1.sent = cw.sent ++ [bs] →
      cr.incoming = { data := bs, err := none } :: rest →
      h0.RecvHeader cr
        = ({ pkgLen := N, cmd := C, status := 0 }, { cr with incoming := rest }, none)) ∧
    (∀ (cr : NetConn) (h0 : header) (bs : List Nat) (e : Option GoError) (rest : List ReadResult),
      bs.length = 10 → bs.getD 9 0 ≠ 0 →
      cr.incoming = { data := bs, err := e } :: rest →
      (h0.RecvHeader cr).2.2 ≠ none ∧
      (e = none → (h0.RecvHeader cr).2.2 = some (GoError.recvStatus (bs.getD 9 0)))) := by
  constructor
  · intro cw cr h0 bs rest hsent hread
    rw [SendHeader_eq, Write_sent] at hsent
    have hbs : bs = putUint64 (uint64 N) ++ [byte C, byte 0] := by
      have := List.append_cancel_left hsent
      simpa using this.symm
    subst hbs
    rw [RecvHeader_of_full_read h0 cr _ _ _ rest (uint64_lt N) hread]
    have h1 := int64_uint64 N hN.1 hN.2
    have h2 := int8_byte C hC.1 hC.2
    have h3 : int8 0 = 0 := by decide
    have h4 : byte 0 = 0 := by decide
    simp [h1, h2, h3, h4]
  · intro cr h0 bs e rest hlen hst hread
    have hr := Read_full cr bs e rest hread hlen
    simp only [header.RecvHeader, hr]
    cases e with
    | some err => simp
    | none =>
      have hst2 : ¬ bs[9]?.getD 0 = 0 := by simpa using hst
      simp [hst2]

/-- Witness for C1 at `N = -2`, `C = -1`: the bytes `ff ff ff ff ff ff ff fe ff 00` decode to
`{-2, -1, 0}`, and a ten-byte read ending in `02` is refused with that status. -/
theorem header_round_trip_witness :
    ({ pkgLen := 7, cmd := 7, status := 7 } : header).RecvHeader
        { incoming := [{ data := [255, 255, 255, 255, 255, 255, 255, 254, 255, 0], err := none }],
          writeErrs := [], sent := [], closed := false }
      = ({ pkgLen := -2, cmd := -1, status := 0 },
         { incoming := [], writeErrs := [], sent := [], closed := false }, none) ∧
    (({ pkgLen := 7, cmd := 7, status := 7 } : header).RecvHeader
        { incoming := [{ data := [0, 0, 0, 0, 0, 0, 0, 0, 100, 2], err := none }],
          writeErrs := [], sent := [], closed := false }).2.2
      = some (GoError.recvStatus 2) :=
  ⟨(header_round_trip (-2) (-1) (by decide) (by decide)).1 NetConn.fresh
      { incoming := [{ data := [255, 255, 255, 255, 255, 255, 255, 254, 255, 0], err := none }],
        writeErrs := [], sent := [], closed := false }
      { pkgLen := 7, cmd := 7, status := 7 } [255, 255, 255, 255, 255, 255, 255, 254, 255, 0] []
      (by decide) rfl,
   ((header_round_trip 0 0 (by decide) (by decide)).2
      { incoming := [{ data := [0, 0, 0, 0, 0, 0, 0, 0, 100, 2], err := none }],
        writeErrs := [], sent := [], closed := false }
      { pkgLen := 7, cmd := 7, status := 7 } [0, 0, 0, 0, 0, 0, 0, 0, 100, 2] none []
      (by decide) (by decide) rfl).2 rfl⟩

/-- C2: `SendHeader` makes exactly one `Write` call, of ten bytes: the first eight are
`pkgLen` as a big-endian two's-complement word, then `cmd` and `status` as unsigned bytes;
its outcome (connection and error) is that of this write, so it fails exactly when the
write does. -/
theorem SendHeader_wire_format (h : header) (conn : NetConn)
    (hp : -9223372036854775808 ≤ h.pkgLen ∧ h.pkgLen < 9223372036854775808)
    (hc : -128 ≤ h.cmd ∧ h.cmd < 128) (hs : -128 ≤ h.status ∧ h.status < 128) :
    ∃ bs : List Nat,
      (h.SendHeader conn).1.sent = conn.sent ++ [bs] ∧
      bs.length = 10 ∧ (∀ b ∈ bs, b < 256) ∧
      (beValue (bs.take 8) : Int)
        = (if 0 ≤ h.pkgLen then h.pkgLen else h.pkgLen + 18446744073709551616) ∧
      (bs.getD 8 0 : Int) = (if 0 ≤ h.cmd then h.cmd else h.cmd + 256) ∧
      (bs.getD 9 0 : Int) = (if 0 ≤ h.status then h.status else h.status + 256) ∧
      h.SendHeader conn = conn.Write bs ∧
      ((h.SendHeader conn).2 ≠ none ↔ ∃ err, conn.writeErrs.head? = some (some err)) := by
  refine ⟨putUint64 (uint64 h.pkgLen) ++ [byte h.cmd, byte h.status], ?_, ?_, ?_, ?_, ?_, ?_,
    SendHeader_eq h conn, ?_⟩
  · rw [SendHeader_eq, Write_sent]
  · simp [putUint64]
  · intro b hb
    rcases List.mem_append.1 hb with hb | hb
    · exact putUint64_lt _ b hb
    · simp only [List.mem_cons, List.mem_singleton, List.not_mem_nil, or_false] at hb
      unfold byte at hb
      omega
  · have : (putUint64 (uint64 h.pkgLen) ++ [byte h.cmd, byte h.status]).take 8
        = putUint64 (uint64 h.pkgLen) := by simp [putUint64]
    rw [this, beValue_putUint64 _ (uint64_lt _)]
    unfold uint64
    split <;> omega
  · simp only [putUint64, List.cons_append, List.nil_append, List.getD_cons_zero,
      List.getD_cons_succ]
    unfold byte
    split <;> omega
  · simp only [putUint64, List.cons_append, List.nil_append, List.getD_cons_zero,
      List.getD_cons_succ]
    unfold byte
    split <;> omega
  · rw [SendHeader_eq, Write_err]
    cases hw : conn.writeErrs with
    | nil => simp
    | cons e rest => cases e <;> simp

/-- Witness for C2: the header `{-2, 11, 0}` on a connection whose next write fails. -/
theorem SendHeader_wire_format_witness :
    ∃ bs : List Nat,
      (({ pkgLen := -2, cmd := 11, status := 0 } : header).SendHeader
        { incoming := [], writeErrs := [some GoError.transport], sent := [],
          closed := false }).1.sent = [] ++ [bs] ∧
      bs.length = 10 ∧ (∀ b ∈ bs, b < 256) ∧
      (beValue (bs.take 8) : Int) = 18446744073709551614 ∧
      (bs.getD 8 0 : Int) = 11 ∧ (bs.getD 9 0 : Int) = 0 := by
  obtain ⟨bs, h1, h2, h3, h4, h5, h6, _⟩ :=
    SendHeader_wire_format { pkgLen := -2, cmd := 11, status := 0 }
      { incoming := [], writeErrs := [some GoError.transport], sent := [], closed := false }
      (by decide) (by decide) (by decide)
  exact ⟨bs, h1, h2, h3, by simpa using h4, by simpa using h5, by simpa using h6⟩

/-- C3 (failing input): a read that delivers the four bytes `00 00 00 01` and reports no
error makes `RecvHeader` return no error and a header with `pkgLen = 4294967296`. -/
theorem RecvHeader_short_read_accepted :
    ({ pkgLen := 7, cmd := 7, status := 7 } : header).RecvHeader
        { incoming := [{ data := [0, 0, 0, 1], err := none }], writeErrs := [], sent := [],
          closed := false }
      = ({ pkgLen := 4294967296, cmd := 0, status := 0 },
         { incoming := [], writeErrs := [], sent := [], closed := false }, none) := by
  decide

/-! ## File identifiers -/

theorem Index_eq_none (s : List Nat) (sep : Nat) : Index s sep = none ↔ sep ∉ s := by
  induction s with
  | nil => simp [Index]
  | cons c cs ih =>
    unfold Index
    by_cases h : c = sep
    · simp [h]
    · have h2 : ¬ sep = c := fun e => h e.symm
      simp [h, h2, ih]

theorem Index_eq_some (s : List Nat) (sep m : Nat) (h : Index s sep = some m) :
    sep ∉ s.take m ∧ s.take m ++ sep :: s.drop (m + 1) = s := by
  induction s generalizing m with
  | nil => simp [Index] at h
  | cons c cs ih =>
    unfold Index at h
    by_cases hc : c = sep
    · simp only [hc, if_true, Option.some.injEq] at h
      subst h
      simp [hc]
    · simp only [hc, if_false, Option.map_eq_some'] at h
      obtain ⟨i, hi, rfl⟩ := h
      have := ih i hi
      have h2 : ¬ sep = c := fun e => hc e.symm
      simp [List.take_succ_cons, h2, this.1, this.2]

theorem splitFileID_of_Index_some (s : List Nat) (m : Nat) (h : Index s 47 = some m) :
    splitFileID s = (s.take m, s.drop (m + 1), none) := by
  simp [splitFileID, SplitN, h]

theorem splitFileID_of_Index_none (s : List Nat) (h : Index s 47 = none) :
    splitFileID s = ([], [], some GoError.invalidFileID) := by
  simp [splitFileID, SplitN, h]

/-- C4: on an identifier that contains `/`, `splitFileID` succeeds with a group name free of
`/` and `groupName + "/" + remoteFilename` is the identifier; on an identifier without `/`
it returns an error. -/
theorem splitFileID_round_trip (s : List Nat) :
    (47 ∈ s → ∃ g f, splitFileID s = (g, f, none) ∧ 47 ∉ g ∧ g ++ [47] ++ f = s) ∧
    (47 ∉ s → (splitFileID s).2.2 ≠ none) := by
  constructor
  · intro hs
    cases hi : Index s 47 with
    | none => exact absurd hs ((Index_eq_none s 47).1 hi)
    | some m =>
      have := Index_eq_some s 47 m hi
      exact ⟨s.take m, s.drop (m + 1), splitFileID_of_Index_some s m hi, this.1, by simpa using this.2⟩
  · intro hs
    rw [splitFileID_of_Index_none s ((Index_eq_none s 47).2 hs)]
    simp

/-- Witness for C4: `group1/M00/00/x.jpg` splits at its first `/`, and `group1` is
rejected. -/
theorem splitFileID_round_trip_witness :
    (∃ g f, splitFileID (ascii "group1/M00/00/x.jpg") = (g, f, none) ∧ 47 ∉ g ∧
      g ++ [47] ++ f = ascii "group1/M00/00/x.jpg") ∧
    (splitFileID (ascii "group1")).2.2 ≠ none :=
  ⟨(splitFileID_round_trip (ascii "group1/M00/00/x.jpg")).1 (by decide),
   (splitFileID_round_trip (ascii "group1")).2 (by decide)⟩

/-- C5 (counterexample): `/x` is accepted with an empty group name and `group1/` is accepted
with an empty remote filename. -/
theorem splitFileID_accepts_empty_parts :
    splitFileID (ascii "/x") = ([], ascii "x", none) ∧
    splitFileID (ascii "group1/") = (ascii "group1", [], none) := by
  decide

/-- C5 (amended): every identifier containing `/` is accepted, and on success the group name
is empty exactly when the identifier starts with `/`, the remote filename exactly when the
first `/` is the last byte of the identifier. -/
theorem splitFileID_parts (s : List Nat) :
    (47 ∈ s → (splitFileID s).2.2 = none) ∧
    (∀ g f, splitFileID s = (g, f, none) →
      (g = [] ↔ s.head? = some 47) ∧ (f = [] ↔ s = g ++ [47])) := by
  constructor
  · intro hs
    obtain ⟨g, f, h, _⟩ := (splitFileID_round_trip s).1 hs
    rw [h]
  · intro g f h
    cases hi : Index s 47 with
    | none => rw [splitFileID_of_Index_none s hi] at h; simp at h
    | some m =>
      rw [splitFileID_of_Index_some s m hi] at h
      have hsp := Index_eq_some s 47 m hi
      simp only [Prod.mk.injEq, and_true] at h
      obtain ⟨hg, hf⟩ := h
      rw [hg, hf] at hsp
      constructor
      · constructor
        · intro h0
          rw [← hsp.2, h0]
          rfl
        · intro hh
          cases g with
          | nil => rfl
          | cons a g' =>
            rw [← hsp.2] at hh
            simp only [List.cons_append, List.head?_cons, Option.some.injEq] at hh
            exact absurd (by simp [hh]) hsp.1
      · constructor
        · intro h0
          rw [← hsp.2, h0]
        · intro hh
          have h2 := hsp.2
          rw [hh] at h2
          simpa using h2

/-- Witness for C5 (amended) at `/x`. -/
theorem splitFileID_parts_witness :
    (splitFileID (ascii "/x")).2.2 = none ∧
    (([] : List Nat) = [] ↔ (ascii "/x").head? = some 47) ∧ (ascii "x" = [] ↔ ascii "/x" = [] ++ [47]) :=
  ⟨(splitFileID_parts (ascii "/x")).1 (by decide),
   (splitFileID_parts (ascii "/x")).2 [] (ascii "x") (by decide)⟩

/-! ## Connection pool -/

theorem makeConn_spec (c : connPool) (w : World) :
    (c.makeConn w).1.maxConns = c.maxConns ∧
    (((c.makeConn w).2.2 = none ∧ (c.makeConn w).1.count = c.count + 1 ∧
        (c.makeConn w).1.conns = c.conns ++ [{ Conn := w.net.length }]) ∨
      ((c.makeConn w).2.2 ≠ none ∧ (c.makeConn w).1 = c)) := by
  unfold connPool.makeConn
  split <;> simp

theorem newConnPoolLoop_spec (n : Nat) (c : connPool) (w : World) :
    (newConnPoolLoop n c w).1.maxConns = c.maxConns ∧
    ((newConnPoolLoop n c w).2.2 = none →
      (newConnPoolLoop n c w).1.count = c.count + n ∧
      (newConnPoolLoop n c w).1.conns.length = c.conns.length + n) := by
  induction n generalizing c w with
  | zero => simp [newConnPoolLoop]
  | succ n ih =>
    have hm := makeConn_spec c w
    unfold newConnPoolLoop
    rcases hmk : c.makeConn w with ⟨c1, w1, e⟩
    rw [hmk] at hm
    cases e with
    | some err =>
      simp only at hm ⊢
      refine ⟨hm.1, ?_⟩
      intro h
      simp at h
    | none =>
      simp only at hm ⊢
      have := ih c1 w1
      rcases hm with ⟨hmax, ⟨_, hcnt, hconns⟩ | ⟨hne, _⟩⟩
      · refine ⟨this.1.trans hmax, ?_⟩
        intro h
        have h2 := this.2 h
        rw [h2.1, h2.2, hcnt, hconns]
        simp only [List.length_append, List.length_singleton, Nat.cast_add, Nat.cast_one]
        constructor <;> omega
      · exact absurd rfl hne

theorem newConnPool_spec (addr : List Nat) (maxConns : Int) (w0 w1 : World) (pool : connPool)
    (hnew : newConnPool addr maxConns w0 = (some pool, w1, none)) :
    MaxconnsLeast ≤ maxConns ∧ pool.maxConns = maxConns ∧ pool.count = 5 ∧
      pool.conns.length = 5 := by
  unfold newConnPool at hnew
  by_cases hlt : maxConns < MaxconnsLeast
  · simp [hlt] at hnew
  · simp only [hlt, if_false] at hnew
    have hs := newConnPoolLoop_spec MaxconnsLeast.toNat
      { conns := [], addr := addr, maxConns := maxConns, count := 0 } w0
    rcases hl : newConnPoolLoop MaxconnsLeast.toNat
      { conns := [], addr := addr, maxConns := maxConns, count := 0 } w0 with ⟨c1, w2, e⟩
    rw [hl] at hnew hs
    cases e with
    | some err => simp at hnew
    | none =>
      simp only [Prod.mk.injEq, Option.some.injEq, and_true] at hnew
      obtain ⟨hc, _⟩ := hnew
      subst hc
      have h2 := hs.2 rfl
      have h5 : MaxconnsLeast.toNat = 5 := by decide
      simp only [h5] at h2
      refine ⟨not_lt.1 hlt, hs.1, ?_, ?_⟩
      · simpa using h2.1
      · simpa using h2.2

theorem get_spec (fuel : Nat) (c : connPool) (w : World) :
    (c.get fuel w).2.1.maxConns = c.maxConns ∧
    (c.count ≤ c.maxConns → (c.get fuel w).2.1.count ≤ c.maxConns) ∧
    (c.Inv → (c.get fuel w).2.1.Inv) := by
  induction fuel generalizing c w with
  | zero => simp [connPool.get]
  | succ fuel ih =>
    unfold connPool.get
    cases hc : c.conns with
    | nil =>
      simp only
      by_cases hge : c.count ≥ c.maxConns
      · simp only [hge, if_true]
        exact ⟨trivial, fun h => h, fun h => h⟩
      · simp only [hge, if_false]
        have hm := makeConn_spec c w
        rcases hmk : c.makeConn w with ⟨c1, w1, e⟩
        rw [hmk] at hm
        simp only at hm ⊢
        have := ih c1 w1
        have hlt : c.count < c.maxConns := not_le.1 hge
        rcases hm with ⟨hmax, ⟨_, hcnt, hconns⟩ | ⟨_, heq⟩⟩
        · refine ⟨this.1.trans hmax, ?_, ?_⟩
          · intro _
            rw [← hmax]
            apply this.2.1
            omega
          · intro hinv
            have h3 : c1.Inv := by
              refine ⟨by omega, ?_, by omega⟩
              rw [hconns, hcnt, hc]
              simp
              omega
            have h4 := this.2.2 h3
            exact h4
        · subst heq
          exact this
    | cons e rest =>
      simp only
      refine ⟨trivial, fun h => h, ?_⟩
      intro hinv
      have h1 := hinv.2.1
      have h2 := hinv.2.2
      rw [hc] at h1
      simp only [List.length_cons, Nat.cast_add, Nat.cast_one] at h1
      refine ⟨?_, ?_, h2⟩
      · show (0 : Int) ≤ (rest.length : Int)
        omega
      · show (rest.length : Int) ≤ c.count
        omega

theorem CheckConnsLoop_spec (l : List pConn) (count : Int) (w : World) :
    (CheckConnsLoop l count w).1.length ≤ l.length ∧
    (CheckConnsLoop l count w).2.1
      = count - ((l.length : Int) - ((CheckConnsLoop l count w).1.length : Int)) := by
  induction l generalizing count w with
  | nil => simp [CheckConnsLoop]
  | cons e next ih =>
    unfold CheckConnsLoop
    rcases hp : CheckConnsProbe e w with ⟨w1, keep⟩
    cases keep with
    | false =>
      simp only
      have := ih (count - 1) w1
      refine ⟨by simp only [List.length_cons]; omega, ?_⟩
      rw [this.2]
      simp only [List.length_cons, Nat.cast_add, Nat.cast_one]
      omega
    | true =>
      simp only
      have := ih count w1
      rcases hl : CheckConnsLoop next count w1 with ⟨kept, cnt, w2⟩
      rw [hl] at this
      simp only at this ⊢
      refine ⟨by simp only [List.length_cons]; omega, ?_⟩
      rw [this.2]
      simp only [List.length_cons, Nat.cast_add, Nat.cast_one]
      omega

theorem CheckConns_spec (c : connPool) (w : World) :
    (c.CheckConns w).1.maxConns = c.maxConns ∧
    (c.CheckConns w).1.conns.length ≤ c.conns.length ∧
    (c.CheckConns w).1.count
      = c.count - ((c.conns.length : Int) - ((c.CheckConns w).1.conns.length : Int)) := by
  have := CheckConnsLoop_spec c.conns c.count w
  unfold connPool.CheckConns
  rcases hl : CheckConnsLoop c.conns c.count w with ⟨kept, cnt, w2⟩
  rw [hl] at this
  exact ⟨rfl, this.1, this.2⟩

theorem apply_count_le (op : PoolOp) (s : connPool × World) (M : Int)
    (h : s.1.maxConns = M ∧ s.1.count ≤ M) :
    (op.apply s).1.maxConns = M ∧ (op.apply s).1.count ≤ M := by
  obtain ⟨c, w⟩ := s
  obtain ⟨hm, hc⟩ := h
  simp only at hm hc
  cases op with
  | get fuel =>
    have := get_spec fuel c w
    simp only [PoolOp.apply]
    exact ⟨this.1.trans hm, hm ▸ this.2.1 (hm ▸ hc)⟩
  | put p =>
    simp only [PoolOp.apply, pConn.Close, connPool.put]
    exact ⟨hm, hc⟩
  | CheckConns =>
    have := CheckConns_spec c w
    simp only [PoolOp.apply]
    refine ⟨this.1.trans hm, ?_⟩
    rw [this.2.2]
    omega

theorem runOps_count_le (ops : List PoolOp) (s : connPool × World) (M : Int)
    (h : s.1.maxConns = M ∧ s.1.count ≤ M) :
    (runOps ops s).1.maxConns = M ∧ (runOps ops s).1.count ≤ M := by
  induction ops generalizing s with
  | nil => simpa [runOps] using h
  | cons op ops ih =>
    have := ih (op.apply s) (apply_count_le op s M h)
    simpa [runOps] using this

/-- C6: from a pool built by `newConnPool` with capacity `maxConns`, after any sequence of
`get`, `put` and `CheckConns` calls (`get` stopped after any number of rounds, dials and
probes answered by any script) the capacity is unchanged and `count ≤ maxConns`. -/
theorem pool_count_le_maxConns (addr : List Nat) (maxConns : Int) (w0 w1 : World)
    (pool : connPool) (hnew : newConnPool addr maxConns w0 = (some pool, w1, none))
    (ops : List PoolOp) :
    (runOps ops (pool, w1)).1.maxConns = maxConns ∧
    (runOps ops (pool, w1)).1.count ≤ maxConns := by
  have h := newConnPool_spec addr maxConns w0 w1 pool hnew
  apply runOps_count_le
  refine ⟨h.2.1, ?_⟩
  have h5 : MaxconnsLeast = 5 := rfl
  show pool.count ≤ maxConns
  rw [h.2.2.1]
  omega

/-- Witness for C6: capacity 6, seven dials of which the last fails; six `get`s, a double
`put`, a sweep and two more `get`s. -/
theorem pool_count_le_maxConns_witness :
    (runOps [PoolOp.get 3, PoolOp.get 3, PoolOp.get 3, PoolOp.get 3, PoolOp.get 3, PoolOp.get 3,
        PoolOp.put { Conn := 0 }, PoolOp.put { Conn := 0 }, PoolOp.CheckConns, PoolOp.get 3,
        PoolOp.get 3]
      ({ conns := [{ Conn := 0 }, { Conn := 1 }, { Conn := 2 }, { Conn := 3 }, { Conn := 4 }],
         addr := [], maxConns := 6, count := 5 },
       { net := List.replicate 5 NetConn.fresh, dials := [some NetConn.fresh, none] })).1.maxConns
      = 6 ∧
    (runOps [PoolOp.get 3, PoolOp.get 3, PoolOp.get 3, PoolOp.get 3, PoolOp.get 3, PoolOp.get 3,
        PoolOp.put { Conn := 0 }, PoolOp.put { Conn := 0 }, PoolOp.CheckConns, PoolOp.get 3,
        PoolOp.get 3]
      ({ conns := [{ Conn := 0 }, { Conn := 1 }, { Conn := 2 }, { Conn := 3 }, { Conn := 4 }],
         addr := [], maxConns := 6, count := 5 },
       { net := List.replicate 5 NetConn.fresh, dials := [some NetConn.fresh, none] })).1.count
      ≤ 6 :=
  pool_count_le_maxConns [] 6
    { net := [], dials := List.replicate 6 (some NetConn.fresh) ++ [none] } _ _ (by decide) _

/-- C7 (counterexample): in a fresh pool of capacity 5, one `get` followed by closing the
handle it returned twice leaves six idle entries against a count of five. -/
theorem pool_invariant_broken_by_double_Close :
    newConnPool [] 5 (World.dialing 5)
      = (some { conns := [{ Conn := 0 }, { Conn := 1 }, { Conn := 2 }, { Conn := 3 },
                  { Conn := 4 }], addr := [], maxConns := 5, count := 5 },
         { net := List.replicate 5 NetConn.fresh, dials := [] }, none) ∧
    (connPool.get 1 { conns := [{ Conn := 0 }, { Conn := 1 }, { Conn := 2 }, { Conn := 3 },
        { Conn := 4 }], addr := [], maxConns := 5, count := 5 }
        { net := List.replicate 5 NetConn.fresh, dials := [] }).1
      = some (some { Conn := 0 }, none) ∧
    (runOps [PoolOp.get 1, PoolOp.put { Conn := 0 }, PoolOp.put { Conn := 0 }]
      ({ conns := [{ Conn := 0 }, { Conn := 1 }, { Conn := 2 }, { Conn := 3 }, { Conn := 4 }],
         addr := [], maxConns := 5, count := 5 },
       { net := List.replicate 5 NetConn.fresh, dials := [] })).1
      = { conns := [{ Conn := 1 }, { Conn := 2 }, { Conn := 3 }, { Conn := 4 }, { Conn := 0 },
            { Conn := 0 }], addr := [], maxConns := 5, count := 5 } ∧
    ¬ (runOps [PoolOp.get 1, PoolOp.put { Conn := 0 }, PoolOp.put { Conn := 0 }]
      ({ conns := [{ Conn := 0 }, { Conn := 1 }, { Conn := 2 }, { Conn := 3 }, { Conn := 4 }],
         addr := [], maxConns := 5, count := 5 },
       { net := List.replicate 5 NetConn.fresh, dials := [] })).1.Inv := by
  decide

/-- C7 (amended): the invariant `0 ≤ idle-count ≤ count ≤ maxConns` holds after
`newConnPool`, is preserved by `get` (stopped after any number of rounds) and by
`CheckConns`, and is preserved by `put` (through `pConn.Close`) when a connection is checked
out at the time of the call, that is when idle-count < count. -/
theorem pool_invariant_preserved :
    (∀ (addr : List Nat) (maxConns : Int) (w0 w1 : World) (pool : connPool),
      newConnPool addr maxConns w0 = (some pool, w1, none) →
      pool.Inv ∧ pool.maxConns = maxConns) ∧
    (∀ (c : connPool) (w : World) (fuel : Nat), c.Inv → (c.get fuel w).2.1.Inv) ∧
    (∀ (c : connPool) (w : World), c.Inv → (c.CheckConns w).1.Inv) ∧
    (∀ (c : connPool) (p : pConn), c.Inv → (c.conns.length : Int) < c.count →
      (p.Close c).1.Inv) := by
  refine ⟨?_, ?_, ?_, ?_⟩
  · intro addr maxConns w0 w1 pool hnew
    have h := newConnPool_spec addr maxConns w0 w1 pool hnew
    have h5 : MaxconnsLeast = 5 := rfl
    refine ⟨⟨by omega, ?_, ?_⟩, h.2.1⟩
    · rw [h.2.2.1, h.2.2.2]
      decide
    · rw [h.2.2.1, h.2.1]
      omega
  · intro c w fuel hinv
    exact (get_spec fuel c w).2.2 hinv
  · intro c w hinv
    have h := CheckConns_spec c w
    obtain ⟨_, h1, h2⟩ := hinv
    refine ⟨by omega, ?_, ?_⟩
    · rw [h.2.2]
      omega
    · rw [h.2.2, h.1]
      have := h.2.1
      omega
  · intro c p hinv hlt
    obtain ⟨_, h1, h2⟩ := hinv
    simp only [pConn.Close, connPool.put]
    refine ⟨by omega, ?_, h2⟩
    show ((c.conns ++ [p]).length : Int) ≤ c.count
    simp only [List.length_append, List.length_singleton, Nat.cast_add, Nat.cast_one]
    omega

/-- Witness for C7 (amended): a fresh pool of capacity 5, one `get`, one sweep and the
return of the handle. -/
theorem pool_invariant_preserved_witness :
    (({ conns := [{ Conn := 0 }, { Conn := 1 }, { Conn := 2 }, { Conn := 3 }, { Conn := 4 }],
        addr := [], maxConns := 5, count := 5 } : connPool).Inv ∧
      ({ conns := [{ Conn := 0 }, { Conn := 1 }, { Conn := 2 }, { Conn := 3 }, { Conn := 4 }],
         addr := [], maxConns := 5, count := 5 } : connPool).maxConns = 5) ∧
    (connPool.get 1 { conns := [{ Conn := 0 }, { Conn := 1 }, { Conn := 2 }, { Conn := 3 },
        { Conn := 4 }], addr := [], maxConns := 5, count := 5 }
        { net := List.replicate 5 NetConn.fresh, dials := [] }).2.1.Inv ∧
    (connPool.CheckConns { conns := [{ Conn := 1 }, { Conn := 2 }, { Conn := 3 }, { Conn := 4 }],
                           addr := [], maxConns := 5, count := 5 }
        { net := List.replicate 5 NetConn.fresh, dials := [] }).1.Inv ∧
    (pConn.Close { Conn := 0 } { conns := [], addr := [], maxConns := 5, count := 1 }).1.Inv :=
  ⟨pool_invariant_preserved.1 [] 5 (World.dialing 5)
     { net := List.replicate 5 NetConn.fresh, dials := [] } _ (by decide),
   pool_invariant_preserved.2.1 _ _ 1 (by decide),
   pool_invariant_preserved.2.2.1 _ _ (by decide),
   pool_invariant_preserved.2.2.2 _ _ (by decide) (by decide)⟩

/-- C8: with an empty idle list and `count ≥ maxConns`, `get` returns the error
`reach maxConns` in its first round, makes no dial and leaves the pool and the network as
they were. -/
theorem get_exhausted (c : connPool) (w : World) (fuel : Nat)
    (hidle : c.conns = []) (hfull : c.count ≥ c.maxConns) :
    c.get (fuel + 1) w = (some (none, some (GoError.reachMaxConns c.maxConns)), c, w) := by
  unfold connPool.get
  rw [hidle]
  simp only [hfull, if_true]

/-- Witness for C8: capacity 5, the five connections checked out by five `get`s, sixth
`get`. -/
theorem get_exhausted_witness :
    runOps [PoolOp.get 1, PoolOp.get 1, PoolOp.get 1, PoolOp.get 1, PoolOp.get 1]
        ({ conns := [{ Conn := 0 }, { Conn := 1 }, { Conn := 2 }, { Conn := 3 }, { Conn := 4 }],
           addr := [], maxConns := 5, count := 5 },
         { net := List.replicate 5 NetConn.fresh, dials := [some NetConn.fresh] })
      = ({ conns := [], addr := [], maxConns := 5, count := 5 },
         { net := List.replicate 5 NetConn.fresh, dials := [some NetConn.fresh] }) ∧
    connPool.get (0 + 1) { conns := [], addr := [], maxConns := 5, count := 5 }
        { net := List.replicate 5 NetConn.fresh, dials := [some NetConn.fresh] }
      = (some (none, some (GoError.reachMaxConns 5)),
         { conns := [], addr := [], maxConns := 5, count := 5 },
         { net := List.replicate 5 NetConn.fresh, dials := [some NetConn.fresh] }) :=
  ⟨by decide,
   get_exhausted { conns := [], addr := [], maxConns := 5, count := 5 }
     { net := List.replicate 5 NetConn.fresh, dials := [some NetConn.fresh] } 0 rfl (by decide)⟩

/-- C9: `get` returns and removes the front of a non-empty idle list without dialing, and
`put` appends at the back; so on a pool with an empty idle list, releasing `p` and calling
`get` returns `p`, and releasing `p1` then `p2` makes the next two `get`s return `p1` then
`p2`, the idle list being empty again and the network untouched. -/
theorem idle_list_fifo (c : connPool) (w : World) (fuel : Nat) :
    (∀ (e : pConn) (rest : List pConn), c.conns = e :: rest →
      c.get (fuel + 1) w = (some (some e, none), { c with conns := rest }, w)) ∧
    (∀ p : pConn, (c.put p).1.conns = c.conns ++ [p] ∧ (c.put p).1.count = c.count) ∧
    (c.conns = [] →
      (∀ p : pConn, (p.Close c).1.get (fuel + 1) w = (some (some p, none), c, w)) ∧
      (∀ p1 p2 : pConn,
        ((p2.Close (p1.Close c).1).1.get (fuel + 1) w).1 = some (some p1, none) ∧
        (((p2.Close (p1.Close c).1).1.get (fuel + 1) w).2.1.get (fuel + 1)
          ((p2.Close (p1.Close c).1).1.get (fuel + 1) w).2.2)
          = (some (some p2, none), c, w))) := by
  refine ⟨?_, ?_, ?_⟩
  · intro e rest h
    unfold connPool.get
    rw [h]
  · intro p
    simp [connPool.put]
  · intro h
    obtain ⟨conns, addr, maxConns, count⟩ := c
    simp only at h
    subst h
    constructor
    · intro p
      simp [pConn.Close, connPool.put, connPool.get]
    · intro p1 p2
      simp [pConn.Close, connPool.put, connPool.get]

/-- Witness for C9: a pool of capacity 5 with all five connections checked out; handles 3
and 1 are closed in that order. -/
theorem idle_list_fifo_witness :
    (pConn.Close { Conn := 3 } { conns := [], addr := [], maxConns := 5, count := 5 }).1.get
        (0 + 1) { net := List.replicate 5 NetConn.fresh, dials := [] }
      = (some (some { Conn := 3 }, none),
         { conns := [], addr := [], maxConns := 5, count := 5 },
         { net := List.replicate 5 NetConn.fresh, dials := [] }) ∧
    ((pConn.Close { Conn := 1 }
        (pConn.Close { Conn := 3 }
          { conns := [], addr := [], maxConns := 5, count := 5 }).1).1.get (0 + 1)
        { net := List.replicate 5 NetConn.fresh, dials := [] }).1
      = some (some { Conn := 3 }, none) :=
  ⟨((idle_list_fifo { conns := [], addr := [], maxConns := 5, count := 5 }
      { net := List.replicate 5 NetConn.fresh, dials := [] } 0).2.2 rfl).1 { Conn := 3 },
   (((idle_list_fifo { conns := [], addr := [], maxConns := 5, count := 5 }
      { net := List.replicate 5 NetConn.fresh, dials := [] } 0).2.2 rfl).2
        { Conn := 3 } { Conn := 1 }).1⟩

/-! ## Upload request -/

theorem Write_of_take (conn : NetConn) (b : List Nat) (n : Nat)
    (hw : ∀ x ∈ conn.writeErrs.take (n + 1), x = none) :
    (conn.Write b).2 = none ∧ (∀ x ∈ (conn.Write b).1.writeErrs.take n, x = none) := by
  unfold NetConn.Write
  cases hc : conn.writeErrs with
  | nil => simp
  | cons e rest =>
    rw [hc] at hw
    simp only [List.take_succ_cons, List.mem_cons, forall_eq_or_imp] at hw
    exact ⟨hw.1, hw.2⟩

theorem newFileInfo_buffer (fs : List Nat → Except GoError File) (b e : List Nat) :
    newFileInfo fs [] b e
      = (some { fileSize := (b.length : Int), buffer := b, file := none,
                fileExtName := e.take 6 }, none) := by
  unfold newFileInfo
  by_cases h : e.length > 6
  · simp [h]
  · have : e.take 6 = e := List.take_of_length_le (by omega)
    simp [h, this]

theorem fillArray_take (e : List Nat) :
    fillArray 6 (e.take 6) = some (e.take 6 ++ List.replicate (6 - (e.take 6).length) 0) := by
  unfold fillArray
  have : (e.take 6).length ≤ 6 := by simp
  simp [this]

theorem upload_SendReq_eq (b ext fid : List Nat) (p : Int) (h0 : header) (conn : NetConn)
    (hb : (b.length : Int) + 15 < 9223372036854775808) (hst : h0.status = 0)
    (hw : ∀ x ∈ conn.writeErrs.take 3, x = none) :
    ({ toheader := h0,
       fileInfo := { fileSize := (b.length : Int), buffer := b, file := none,
                     fileExtName := ext.take 6 },
       storagePathIndex := p, fileID := fid } : storageUploadTask).SendReq conn
    = some ({ toheader := { pkgLen := (b.length : Int) + 15, cmd := 11, status := 0 },
              fileInfo := { fileSize := (b.length : Int), buffer := b, file := none,
                            fileExtName := ext.take 6 },
              storagePathIndex := p, fileID := fid },
            (((conn.Write (putUint64 (b.length + 15) ++ [11, 0])).1.Write
              ([byte p] ++ putUint64 b.length ++
                (ext.take 6 ++ List.replicate (6 - (ext.take 6).length) 0))).1.Write b).1,
            none) := by
  have hu1 : uint64 ((b.length : Int) + 15) = b.length + 15 := by
    unfold uint64
    omega
  have hu2 : uint64 (b.length : Int) = b.length := by
    unfold uint64
    omega
  have hi : int64 (b.length + 15) = (b.length : Int) + 15 := by
    rw [← hu1]
    exact int64_uint64 _ (by omega) hb
  have hb11 : byte 11 = 11 := by decide
  have hb0 : byte 0 = 0 := by decide
  simp only [storageUploadTask.SendReq, StorageProtoCmdUploadFile, hi, hu2, SendHeader_eq,
    hu1, hst, hb11, hb0, fillArray_take]
  obtain ⟨hw1, hr1⟩ := Write_of_take conn (putUint64 (b.length + 15) ++ [11, 0]) 2 hw
  rcases hc1 : conn.Write (putUint64 (b.length + 15) ++ [11, 0]) with ⟨c1, e1⟩
  rw [hc1] at hw1 hr1
  simp only at hw1 hr1
  subst hw1
  simp only
  obtain ⟨hw2, hr2⟩ := Write_of_take c1 ([byte p] ++ putUint64 b.length ++
    (ext.take 6 ++ List.replicate (6 - (ext.take 6).length) 0)) 1 hr1
  rcases hc2 : c1.Write ([byte p] ++ putUint64 b.length ++
    (ext.take 6 ++ List.replicate (6 - (ext.take 6).length) 0)) with ⟨c2, e2⟩
  rw [hc2] at hw2 hr2
  simp only at hw2 hr2
  subst hw2
  simp only
  obtain ⟨hw3, _⟩ := Write_of_take c2 b 0 hr2
  rcases hc3 : c2.Write b with ⟨c3, e3⟩
  rw [hc3] at hw3
  simp only at hw3
  subst hw3
  rfl

/-- C10: for a buffer `b`, an extension tag `e` and a path index `p`, with the descriptor
built by `newFileInfo("", b, e)` and a task whose status is 0, on a connection that accepts
the three writes `SendReq` returns no error and has written the header
`{len(b)+15, 11, 0}` (ten bytes), then the byte `p`, `len(b)` as eight big-endian bytes and
the six-byte field holding the first `min(6, len(e))` bytes of `e` padded with zeros, then
`b` (`len(b) + 15` fits in an `int64`). -/
theorem upload_SendReq_encoding (fs : List Nat → Except GoError File) (b e fid : List Nat)
    (p : Int) (h0 : header) (conn : NetConn)
    (hb : (b.length : Int) + 15 < 9223372036854775808) (hst : h0.status = 0)
    (hw : ∀ x ∈ conn.writeErrs.take 3, x = none) :
    ∃ (fi : fileInfo) (s1 : storageUploadTask) (conn1 : NetConn),
      newFileInfo fs [] b e = (some fi, none) ∧
      ({ toheader := h0, fileInfo := fi, storagePathIndex := p, fileID := fid } :
        storageUploadTask).SendReq conn = some (s1, conn1, none) ∧
      s1.toheader = { pkgLen := (b.length : Int) + 15, cmd := 11, status := 0 } ∧
      conn1.sent = (s1.toheader.SendHeader conn).1.sent ++
        [[byte p] ++ putUint64 b.length ++
          (e.take 6 ++ List.replicate (6 - (e.take 6).length) 0), b] ∧
      (s1.toheader.SendHeader conn).1.sent
        = conn.sent ++ [putUint64 (b.length + 15) ++ [11, 0]] ∧
      (putUint64 (b.length + 15) ++ [11, 0]).length = 10 ∧
      beValue (putUint64 (b.length + 15)) = b.length + 15 ∧
      beValue (putUint64 b.length) = b.length ∧
      (e.take 6 ++ List.replicate (6 - (e.take 6).length) 0).length = 6 := by
  have hlt1 : b.length + 15 < 18446744073709551616 := by omega
  have hlt2 : b.length < 18446744073709551616 := by omega
  have hu1 : uint64 ((b.length : Int) + 15) = b.length + 15 := by
    unfold uint64
    omega
  have hb11 : byte 11 = 11 := by decide
  have hb0 : byte 0 = 0 := by decide
  have hsh : (({ pkgLen := (b.length : Int) + 15, cmd := 11, status := 0 } : header).SendHeader
      conn).1.sent = conn.sent ++ [putUint64 (b.length + 15) ++ [11, 0]] := by
    rw [SendHeader_eq, Write_sent]
    simp only [hu1, hb11, hb0]
  refine ⟨_, _, _, newFileInfo_buffer fs b e, upload_SendReq_eq b e fid p h0 conn hb hst hw,
    rfl, ?_, hsh, rfl, beValue_putUint64 _ hlt1, beValue_putUint64 _ hlt2, ?_⟩
  · simp only [hsh, Write_sent, List.append_assoc, List.singleton_append]
    rfl
  · have : (e.take 6).length ≤ 6 := by simp
    simp only [List.length_append, List.length_replicate]
    omega

/-- Witness for C10: the buffer `01 02 03` with the tag `jpegxxxx` and path index 2; the
six-byte field carries `jpegxx`. -/
theorem upload_SendReq_encoding_witness :
    ∃ (fi : fileInfo) (s1 : storageUploadTask) (conn1 : NetConn),
      newFileInfo (fun _ => Except.error GoError.transport) [] [1, 2, 3] (ascii "jpegxxxx")
        = (some fi, none) ∧
      ({ toheader := { pkgLen := 0, cmd := 0, status := 0 }, fileInfo := fi,
         storagePathIndex := 2, fileID := [] } : storageUploadTask).SendReq NetConn.fresh
        = some (s1, conn1, none) ∧
      s1.toheader = { pkgLen := 18, cmd := 11, status := 0 } ∧
      conn1.sent = [[0, 0, 0, 0, 0, 0, 0, 18, 11, 0],
        [2, 0, 0, 0, 0, 0, 0, 0, 3] ++ ascii "jpegxx", [1, 2, 3]] := by
  obtain ⟨fi, s1, conn1, h1, h2, h3, h4, h5, _⟩ :=
    upload_SendReq_encoding (fun _ => Except.error GoError.transport) [1, 2, 3]
      (ascii "jpegxxxx") [] 2 { pkgLen := 0, cmd := 0, status := 0 } NetConn.fresh
      (by decide) rfl (by decide)
  refine ⟨fi, s1, conn1, h1, h2, h3, ?_⟩
  rw [h4, h5]
  decide

/-! ## Fixed-width group field -/

/-- C11 (failing input): with the 17-byte group name `aaaaaaaaaaaaaaaaa` and the remote
filename `x`, `SendReq` of the tracker query, of the download task and of the delete task
ends in the index-out-of-range fault of the copy into `[16]byte`. -/
theorem SendReq_long_group_name_faults :
    ({ toheader := { pkgLen := 0, cmd := 102, status := 0 },
       groupName := ascii "aaaaaaaaaaaaaaaaa", remoteFilename := ascii "x",
       trackerStorageInfo := { groupName := [], ipAddr := [], port := 0, storePathIndex := 0 } } :
      trackerTask).SendReq NetConn.fresh = none ∧
    ({ toheader := { pkgLen := 0, cmd := 0, status := 0 },
       groupName := ascii "aaaaaaaaaaaaaaaaa", remoteFilename := ascii "x", offset := 0,
       downloadBytes := 0, localFilename := [], buffer := none } :
      storageDownloadTask).SendReq NetConn.fresh = none ∧
    ({ toheader := { pkgLen := 0, cmd := 0, status := 0 },
       groupName := ascii "aaaaaaaaaaaaaaaaa", remoteFilename := ascii "x" } :
      storageDeleteTask).SendReq NetConn.fresh = none := by
  decide

/-! ## Responses -/

theorem RecvHeader_ok_status (h h1 : header) (conn conn1 : NetConn)
    (hhdr : h.RecvHeader conn = (h1, conn1, none)) : h1.status = 0 := by
  rcases hr : conn.Read (List.replicate 10 0) with ⟨c, buf, n, e⟩
  simp only [header.RecvHeader, hr] at hhdr
  cases e with
  | some err => simp at hhdr
  | none =>
    simp only at hhdr
    split at hhdr
    · simp at hhdr
    · rename_i hst
      simp only [Prod.mk.injEq, and_true] at hhdr
      rw [← hhdr.1]
      have : List.getD buf 9 0 = 0 := by simpa using hst
      simp only [this]
      decide

/-- C12: a download task with no local filename and a caller buffer shorter than the
`pkgLen` of the response header returns the buffer-too-small error; the connection is
left as the header read left it (no payload read) and the buffer is the caller's,
unchanged. -/
theorem download_buffer_too_small (u : Util) (create flush : List Nat → Option GoError)
    (s : storageDownloadTask) (conn conn1 : NetConn) (h1 : header) (buf : List Nat)
    (hfile : s.localFilename = []) (hbuf : s.buffer = some buf)
    (hhdr : s.toheader.RecvHeader conn = (h1, conn1, none))
    (hsmall : (buf.length : Int) < h1.pkgLen) :
    s.RecvRes u create flush conn
      = ({ s with toheader := h1 }, conn1,
          some (GoError.downloadRecvRes GoError.bufferTooSmall)) ∧
    (s.RecvRes u create flush conn).1.buffer = some buf ∧
    (s.RecvRes u create flush conn).2.1 = (s.toheader.RecvHeader conn).2.1 := by
  have h : s.RecvRes u create flush conn
      = ({ s with toheader := h1 }, conn1,
          some (GoError.downloadRecvRes GoError.bufferTooSmall)) := by
    simp only [storageDownloadTask.RecvRes, hhdr, hfile, storageDownloadTask.recvBuffer, hbuf,
      hsmall, ne_eq, not_true_eq_false, if_false, if_true]
  refine ⟨h, ?_, ?_⟩
  · rw [h]
    exact hbuf
  · rw [h, hhdr]

/-- Witness for C12: a 5-byte caller buffer against a response header with `pkgLen = 10`
followed by ten payload bytes, which stay unread. -/
theorem download_buffer_too_small_witness :
    ({ toheader := { pkgLen := 0, cmd := 0, status := 0 }, groupName := ascii "group1",
       remoteFilename := ascii "file.dat", offset := 0, downloadBytes := 10,
       localFilename := [], buffer := some [9, 9, 9, 9, 9] } : storageDownloadTask).RecvRes
        Util.spec (fun _ => none) (fun _ => none)
        { incoming := [{ data := [0, 0, 0, 0, 0, 0, 0, 10, 100, 0], err := none },
                       { data := [1, 2, 3, 4, 5, 6, 7, 8, 9, 10], err := none }],
          writeErrs := [], sent := [], closed := false }
      = ({ toheader := { pkgLen := 10, cmd := 100, status := 0 }, groupName := ascii "group1",
           remoteFilename := ascii "file.dat", offset := 0, downloadBytes := 10,
           localFilename := [], buffer := some [9, 9, 9, 9, 9] },
         { incoming := [{ data := [1, 2, 3, 4, 5, 6, 7, 8, 9, 10], err := none }],
           writeErrs := [], sent := [], closed := false },
         some (GoError.downloadRecvRes GoError.bufferTooSmall)) :=
  (download_buffer_too_small Util.spec (fun _ => none) (fun _ => none)
    { toheader := { pkgLen := 0, cmd := 0, status := 0 }, groupName := ascii "group1",
      remoteFilename := ascii "file.dat", offset := 0, downloadBytes := 10,
      localFilename := [], buffer := some [9, 9, 9, 9, 9] }
    { incoming := [{ data := [0, 0, 0, 0, 0, 0, 0, 10, 100, 0], err := none },
                   { data := [1, 2, 3, 4, 5, 6, 7, 8, 9, 10], err := none }],
      writeErrs := [], sent := [], closed := false }
    { incoming := [{ data := [1, 2, 3, 4, 5, 6, 7, 8, 9, 10], err := none }],
      writeErrs := [], sent := [], closed := false }
    { pkgLen := 10, cmd := 100, status := 0 } [9, 9, 9, 9, 9] rfl rfl (by decide)
    (by decide)).1

/-- C13: after a response header with status 0, `storageUploadTask.RecvRes` returns an
error when `pkgLen ≤ 16` or `pkgLen > 100`, with the connection as the header read left it
and `fileID` untouched; when `16 < pkgLen ≤ 100` it goes on to one read of `pkgLen`
bytes. -/
theorem upload_RecvRes_length_check (u : Util) (s : storageUploadTask) (conn conn1 : NetConn)
    (h1 : header) (hhdr : s.toheader.RecvHeader conn = (h1, conn1, none)) :
    h1.status = 0 ∧
    ((h1.pkgLen ≤ 16 ∨ h1.pkgLen > 100) →
      (∃ err, s.RecvRes u conn = ({ s with toheader := h1 }, conn1, some err)) ∧
      (s.RecvRes u conn).1.fileID = s.fileID ∧
      (s.RecvRes u conn).2.1 = (s.toheader.RecvHeader conn).2.1) ∧
    ((16 < h1.pkgLen ∧ h1.pkgLen ≤ 100) →
      (s.RecvRes u conn).2.1 = (conn1.Read (List.replicate h1.pkgLen.toNat 0)).1 ∧
      ((s.RecvRes u conn).2.2 = none →
        (conn1.Read (List.replicate h1.pkgLen.toNat 0)).2.2.2 = none)) := by
  refine ⟨RecvHeader_ok_status _ _ _ _ hhdr, ?_, ?_⟩
  · intro hbad
    have h : ∃ err, s.RecvRes u conn = ({ s with toheader := h1 }, conn1, some err) := by
      simp only [storageUploadTask.RecvRes, hhdr]
      by_cases h16 : h1.pkgLen ≤ 16
      · exact ⟨GoError.pkgLenTooShort, by simp only [h16, if_true]⟩
      · have h100 : h1.pkgLen > 100 := by omega
        exact ⟨GoError.pkgLenTooLong, by simp only [h16, h100, if_true, if_false]⟩
    obtain ⟨err, he⟩ := h
    refine ⟨⟨err, he⟩, ?_, ?_⟩
    · rw [he]
    · rw [he, hhdr]
  · intro hok
    have h16 : ¬ h1.pkgLen ≤ 16 := by omega
    have h100 : ¬ h1.pkgLen > 100 := by omega
    simp only [storageUploadTask.RecvRes, hhdr, h16, h100, if_false]
    rcases hr : conn1.Read (List.replicate h1.pkgLen.toNat 0) with ⟨c, buf, n, e⟩
    cases e with
    | some err => simp
    | none =>
      simp only
      rcases hg : u.readCStrFromByteBuffer buf 16 with ⟨b1, g, e1⟩
      cases e1 with
      | some err => simp
      | none =>
        simp only
        rcases hf : u.readCStrFromByteBuffer b1 (h1.pkgLen - 16) with ⟨b2, f, e2⟩
        cases e2 with
        | some err => simp
        | none => simp

/-- Witness for C13: a response header with `pkgLen = 16` is refused with the payload
unread; one with `pkgLen = 31` is followed by the read of the 31-byte payload. -/
theorem upload_RecvRes_length_check_witness :
    (∃ err, ({ toheader := { pkgLen := 0, cmd := 11, status := 0 },
               fileInfo := { fileSize := 0, buffer := [], file := none, fileExtName := [] },
               storagePathIndex := 0, fileID := [] } : storageUploadTask).RecvRes Util.spec
          { incoming := [{ data := [0, 0, 0, 0, 0, 0, 0, 16, 100, 0], err := none },
                         { data := List.replicate 16 65, err := none }],
            writeErrs := [], sent := [], closed := false }
        = ({ toheader := { pkgLen := 16, cmd := 100, status := 0 },
             fileInfo := { fileSize := 0, buffer := [], file := none, fileExtName := [] },
             storagePathIndex := 0, fileID := [] },
           { incoming := [{ data := List.replicate 16 65, err := none }],
             writeErrs := [], sent := [], closed := false }, some err)) ∧
    (({ toheader := { pkgLen := 0, cmd := 11, status := 0 },
        fileInfo := { fileSize := 0, buffer := [], file := none, fileExtName := [] },
        storagePathIndex := 0, fileID := [] } : storageUploadTask).RecvRes Util.spec
          { incoming := [{ data := [0, 0, 0, 0, 0, 0, 0, 31, 100, 0], err := none },
                         { data := ascii "group1" ++ List.replicate 10 0
                             ++ ascii "M00/00/00/x.jpg", err := none }],
            writeErrs := [], sent := [], closed := false }).2.1
      = (NetConn.Read
          { incoming := [{ data := ascii "group1" ++ List.replicate 10 0
                             ++ ascii "M00/00/00/x.jpg", err := none }],
            writeErrs := [], sent := [], closed := false }
          (List.replicate (31 : Int).toNat 0)).1 :=
  ⟨((upload_RecvRes_length_check Util.spec
      { toheader := { pkgLen := 0, cmd := 11, status := 0 },
        fileInfo := { fileSize := 0, buffer := [], file := none, fileExtName := [] },
        storagePathIndex := 0, fileID := [] }
      { incoming := [{ data := [0, 0, 0, 0, 0, 0, 0, 16, 100, 0], err := none },
                     { data := List.replicate 16 65, err := none }],
        writeErrs := [], sent := [], closed := false }
      { incoming := [{ data := List.replicate 16 65, err := none }],
        writeErrs := [], sent := [], closed := false }
      { pkgLen := 16, cmd := 100, status := 0 } (by decide)).2.1 (Or.inl (by decide))).1,
   ((upload_RecvRes_length_check Util.spec
      { toheader := { pkgLen := 0, cmd := 11, status := 0 },
        fileInfo := { fileSize := 0, buffer := [], file := none, fileExtName := [] },
        storagePathIndex := 0, fileID := [] }
      { incoming := [{ data := [0, 0, 0, 0, 0, 0, 0, 31, 100, 0], err := none },
                     { data := ascii "group1" ++ List.replicate 10 0
                         ++ ascii "M00/00/00/x.jpg", err := none }],
        writeErrs := [], sent := [], closed := false }
      { incoming := [{ data := ascii "group1" ++ List.replicate 10 0
                         ++ ascii "M00/00/00/x.jpg", err := none }],
        writeErrs := [], sent := [], closed := false }
      { pkgLen := 31, cmd := 100, status := 0 } (by decide)).2.2 ⟨by decide, by decide⟩).1⟩

/-- C14: after a response header with status 0, `trackerTask.RecvRes` returns the
invalid-length error when `pkgLen` is neither 39 nor 40, with the connection as the header
read left it and `ipAddr`, `port`, `storePathIndex` untouched; when `pkgLen = 39` the
`storePathIndex` is left as it was, whatever the payload, so it stays 0 when it was 0. -/
theorem tracker_RecvRes_length_check (u : Util) (t : trackerTask) (conn conn1 : NetConn)
    (h1 : header) (hhdr : t.toheader.RecvHeader conn = (h1, conn1, none)) :
    h1.status = 0 ∧
    ((h1.pkgLen ≠ 39 ∧ h1.pkgLen ≠ 40) →
      t.RecvRes u conn
        = ({ t with toheader := h1 }, conn1, some (GoError.invalidPkgLen h1.pkgLen)) ∧
      (t.RecvRes u conn).1.trackerStorageInfo = t.trackerStorageInfo ∧
      (t.RecvRes u conn).2.1 = (t.toheader.RecvHeader conn).2.1) ∧
    (h1.pkgLen = 39 →
      (t.RecvRes u conn).1.trackerStorageInfo.storePathIndex
        = t.trackerStorageInfo.storePathIndex ∧
      (t.trackerStorageInfo.storePathIndex = 0 →
        (t.RecvRes u conn).1.trackerStorageInfo.storePathIndex = 0)) := by
  refine ⟨RecvHeader_ok_status _ _ _ _ hhdr, ?_, ?_⟩
  · intro hbad
    have h : t.RecvRes u conn
        = ({ t with toheader := h1 }, conn1, some (GoError.invalidPkgLen h1.pkgLen)) := by
      simp only [trackerTask.RecvRes, hhdr, hbad, ne_eq, not_false_eq_true, and_self, if_true]
    refine ⟨h, ?_, ?_⟩
    · rw [h]
    · rw [h, hhdr]
  · intro h39
    have hkey : (t.RecvRes u conn).1.trackerStorageInfo.storePathIndex
        = t.trackerStorageInfo.storePathIndex := by
      simp only [trackerTask.RecvRes, hhdr, h39]
      simp only [ne_eq, not_true_eq_false, false_and, if_false]
      have h3940 : ¬ ((39 : Int) = 40) := by decide
      simp only [h3940, if_false]
      repeat' split
      all_goals rfl
    exact ⟨hkey, fun h0 => hkey.trans h0⟩

/-- Witness for C14: a header with `pkgLen = 41` is refused with the payload unread; with
`pkgLen = 39` the path index stays 0 although a fortieth byte 3 arrives; with `pkgLen = 40`
that byte is the path index. -/
theorem tracker_RecvRes_length_check_witness :
    (newTrackerTask 102 [] []).RecvRes Util.spec (trackerResponse 41)
      = ({ newTrackerTask 102 [] [] with toheader := { pkgLen := 41, cmd := 100, status := 0 } },
         { trackerResponse 41 with incoming := (trackerResponse 41).incoming.tail },
         some (GoError.invalidPkgLen 41)) ∧
    ((newTrackerTask 102 [] []).RecvRes Util.spec
      (trackerResponse 39)).1.trackerStorageInfo.storePathIndex = 0 ∧
    ((newTrackerTask 102 [] []).RecvRes Util.spec (trackerResponse 40)).1.trackerStorageInfo
      = { groupName := [], ipAddr := ascii "10.0.0.1", port := 23000, storePathIndex := 3 } :=
  ⟨((tracker_RecvRes_length_check Util.spec (newTrackerTask 102 [] []) (trackerResponse 41)
      { trackerResponse 41 with incoming := (trackerResponse 41).incoming.tail }
      { pkgLen := 41, cmd := 100, status := 0 } (by decide)).2.1 ⟨by decide, by decide⟩).1,
   ((tracker_RecvRes_length_check Util.spec (newTrackerTask 102 [] []) (trackerResponse 39)
      { trackerResponse 39 with incoming := (trackerResponse 39).incoming.tail }
      { pkgLen := 39, cmd := 100, status := 0 } (by decide)).2.2 rfl).2 rfl,
   by decide⟩

/-! ## Client -/

/-- C15 (counterexample): a configuration with no tracker address and `MaxConn = 0` is
accepted: `New` returns a client with no pool and no error. -/
theorem New_accepts_no_trackers :
    New (some { TrackerAddrs := [], MaxConn := 0 }) (World.dialing 0)
      = (some { trackerPools := [], storagePools := [],
                config := { TrackerAddrs := [], MaxConn := 0 } }, World.dialing 0, none) := by
  decide

/-- C15 (amended): `New` returns an error and no client for a `nil` configuration, and for
a configuration that lists at least one tracker address and has `MaxConn < 5`; a
configuration that lists no tracker address is accepted, whatever its `MaxConn`. -/
theorem New_rejects (w : World) :
    New none w = (none, w, some GoError.configNil) ∧
    (∀ (config : Config) (addr : List Nat) (rest : List (List Nat)),
      config.TrackerAddrs = addr :: rest → config.MaxConn < 5 →
      New (some config) w = (none, w, some GoError.tooLittleMaxConns)) ∧
    (∀ config : Config, config.TrackerAddrs = [] →
      New (some config) w
        = (some { trackerPools := [], storagePools := [], config := config }, w, none)) := by
  refine ⟨rfl, ?_, ?_⟩
  · intro config addr rest haddr hmax
    have h5 : config.MaxConn < MaxconnsLeast := hmax
    simp [New, haddr, NewLoop, newConnPool, h5]
  · intro config haddr
    simp [New, haddr, NewLoop]

/-- Witness for C15 (amended): one tracker with `MaxConn = 4` is refused, no tracker with
`MaxConn = 4` is accepted. -/
theorem New_rejects_witness :
    New (some { TrackerAddrs := [ascii "t"], MaxConn := 4 }) (World.dialing 5)
      = (none, World.dialing 5, some GoError.tooLittleMaxConns) ∧
    New (some { TrackerAddrs := [], MaxConn := 4 }) (World.dialing 5)
      = (some { trackerPools := [], storagePools := [],
                config := { TrackerAddrs := [], MaxConn := 4 } }, World.dialing 5, none) :=
  ⟨(New_rejects (World.dialing 5)).2.1 { TrackerAddrs := [ascii "t"], MaxConn := 4 }
      (ascii "t") [] rfl (by decide),
   (New_rejects (World.dialing 5)).2.2 { TrackerAddrs := [], MaxConn := 4 } rfl⟩

theorem get?_set_of_get? {α : Type} (m : List α) (i : Nat) (x y : α) (h : m.get? i = some x) :
    (m.set i y).get? i = some y := by
  induction m generalizing i with
  | nil => simp at h
  | cons a m ih =>
    cases i with
    | zero => simp
    | succ i =>
      simp only [List.get?_cons_succ] at h
      simpa using ih i h

theorem closeAt_get? (m : List (List Nat × connPool)) (i : Nat) (p : pConn) (a : List Nat)
    (pool : connPool) (h : m.get? i = some (a, pool)) :
    (closeAt m i p).get? i = some (a, { pool with conns := pool.conns ++ [p] }) := by
  unfold closeAt
  rw [h]
  exact get?_set_of_get? m i _ _ h

theorem getTrackerConnLoop_conn (fuel : Nat) (m : List (List Nat × connPool)) (i0 : Nat)
    (e : Option GoError) (w : World) (p : pConn) (i : Nat) (m1 : List (List Nat × connPool))
    (w1 : World) (h : getTrackerConnLoop fuel m i0 e w = (Acquired.conn p i, m1, w1)) :
    i0 ≤ i ∧ ∃ a pool, m1.get? (i - i0) = some (a, pool) := by
  induction m generalizing i0 e w m1 w1 with
  | nil =>
    unfold getTrackerConnLoop at h
    cases e <;> simp at h
  | cons x rest ih =>
    obtain ⟨a, pool⟩ := x
    unfold getTrackerConnLoop at h
    rcases hget : pool.get fuel w with ⟨r, pool1, w2⟩
    rw [hget] at h
    cases r with
    | none => simp at h
    | some r =>
      obtain ⟨pc, er⟩ := r
      cases er with
      | none =>
        cases pc with
        | none => simp at h
        | some q =>
          simp only [Prod.mk.injEq, Acquired.conn.injEq] at h
          obtain ⟨⟨_, hi⟩, hm, _⟩ := h
          subst hi hm
          exact ⟨le_refl _, a, pool1, by simp⟩
      | some err =>
        simp only at h
        rcases hrec : getTrackerConnLoop fuel rest (i0 + 1) (some err) w2 with ⟨r2, rest2, w3⟩
        rw [hrec] at h
        simp only [Prod.mk.injEq] at h
        obtain ⟨hr, hm, _⟩ := h
        subst hr hm
        obtain ⟨hle, a2, pool2, hg⟩ := ih (i0 + 1) (some err) w2 rest2 w3 hrec
        refine ⟨by omega, a2, pool2, ?_⟩
        have : i - i0 = (i - (i0 + 1)) + 1 := by omega
        rw [this]
        simpa using hg

theorem getAt_conn (m : List (List Nat × connPool)) (i fuel : Nat) (w : World) (p : pConn)
    (j : Nat) (m1 : List (List Nat × connPool)) (w1 : World)
    (h : getAt m i fuel w = (Acquired.conn p j, m1, w1)) :
    ∃ a pool, m1.get? j = some (a, pool) := by
  unfold getAt at h
  cases hm : m.get? i with
  | none =>
    rw [hm] at h
    simp at h
  | some x =>
    obtain ⟨a, pool⟩ := x
    rw [hm] at h
    simp only at h
    rcases hget : pool.get fuel w with ⟨r, pool1, w2⟩
    rw [hget] at h
    cases r with
    | none => simp at h
    | some r =>
      obtain ⟨pc, er⟩ := r
      cases er with
      | some err => simp at h
      | none =>
        cases pc with
        | none => simp at h
        | some q =>
          simp only [Prod.mk.injEq, Acquired.conn.injEq] at h
          obtain ⟨⟨_, hi⟩, hm1, _⟩ := h
          subst hi hm1
          exact ⟨a, pool1, get?_set_of_get? m i _ _ hm⟩

theorem getStorageConn_conn (c : Client) (info : storageInfo) (fuel : Nat) (w : World)
    (p : pConn) (i : Nat) (c1 : Client) (w1 : World)
    (h : c.getStorageConn info fuel w = (Acquired.conn p i, c1, w1)) :
    ∃ a pool, c1.storagePools.get? i = some (a, pool) := by
  unfold Client.getStorageConn at h
  cases hidx : mapIndex c.storagePools info.addr with
  | some j =>
    rw [hidx] at h
    simp only at h
    rcases hg : getAt c.storagePools j fuel w with ⟨r, pools, w2⟩
    rw [hg] at h
    simp only [Prod.mk.injEq] at h
    obtain ⟨hr, hc, _⟩ := h
    subst hr hc
    exact getAt_conn _ _ _ _ _ _ _ _ hg
  | none =>
    rw [hidx] at h
    simp only at h
    rcases hn : newConnPool info.addr c.config.MaxConn w with ⟨po, w2, e⟩
    rw [hn] at h
    cases e with
    | some err => simp at h
    | none =>
      cases po with
      | none => simp at h
      | some storagePool =>
        simp only at h
        rcases hg : getAt (c.storagePools ++ [(info.addr, storagePool)]) c.storagePools.length
          fuel w2 with ⟨r, pools, w3⟩
        rw [hg] at h
        simp only [Prod.mk.injEq] at h
        obtain ⟨hr, hc, _⟩ := h
        subst hr hc
        exact getAt_conn _ _ _ _ _ _ _ _ hg

/-- C16 (counterexample): in the client of one tracker whose first transport refuses its
first write, `doTracker` gets that connection, `SendReq` returns the write error, and after
the call the connection is at the back of the pool's idle list; the fifth `get` that
follows hands it out again. -/
theorem failed_connection_back_in_idle_list :
    (oneTrackerClient.getTrackerConn 1 oneBrokenWorld).1 = Acquired.conn { Conn := 0 } 0 ∧
    (oneTrackerClient.doTracker (trackerTask.task Util.spec) (newTrackerTask 101 [] []) 1
        oneBrokenWorld).1 = Exit.returned (some GoError.transport) ∧
    (oneTrackerClient.doTracker (trackerTask.task Util.spec) (newTrackerTask 101 [] []) 1
        oneBrokenWorld).2.2.1.trackerPools
      = [(ascii "t",
          { conns := [{ Conn := 1 }, { Conn := 2 }, { Conn := 3 }, { Conn := 4 }, { Conn := 0 }],
            addr := ascii "t", maxConns := 5, count := 5 })] ∧
    (connPool.get 1
        (runOps [PoolOp.get 1, PoolOp.get 1, PoolOp.get 1, PoolOp.get 1]
          ({ conns := [{ Conn := 1 }, { Conn := 2 }, { Conn := 3 }, { Conn := 4 },
                       { Conn := 0 }],
             addr := ascii "t", maxConns := 5, count := 5 }, oneBrokenWorld)).1
        oneBrokenWorld).1 = some (some { Conn := 0 }, none) := by
  decide

/-- C16 (amended): whatever `SendReq` and `RecvRes` return (an error or a fault included),
the connection `doTracker` or `doStorage` obtained is put back: after the call it is the
last entry of the idle list of the pool it came from. -/
theorem used_connection_returned {τ : Type} (tk : task τ) (s : τ) (c : Client) (fuel : Nat)
    (w : World) :
    (∀ (p : pConn) (i : Nat) (c1 : Client) (w1 : World),
      c.getTrackerConn fuel w = (Acquired.conn p i, c1, w1) →
      ∃ a pool, c1.trackerPools.get? i = some (a, pool) ∧
        (c.doTracker tk s fuel w).2.2.1.trackerPools.get? i
          = some (a, { pool with conns := pool.conns ++ [p] })) ∧
    (∀ (info : storageInfo) (p : pConn) (i : Nat) (c1 : Client) (w1 : World),
      c.getStorageConn info fuel w = (Acquired.conn p i, c1, w1) →
      ∃ a pool, c1.storagePools.get? i = some (a, pool) ∧
        (c.doStorage tk s info fuel w).2.2.1.storagePools.get? i
          = some (a, { pool with conns := pool.conns ++ [p] })) := by
  constructor
  · intro p i c1 w1 h
    have hloop : ∃ a pool, c1.trackerPools.get? i = some (a, pool) := by
      unfold Client.getTrackerConn at h
      rcases hl : getTrackerConnLoop fuel c.trackerPools 0 none w with ⟨r, pools, w2⟩
      rw [hl] at h
      simp only [Prod.mk.injEq] at h
      obtain ⟨hr, hc, _⟩ := h
      subst hr hc
      have := (getTrackerConnLoop_conn fuel _ 0 none w p i pools w2 hl).2
      simpa using this
    obtain ⟨a, pool, hg⟩ := hloop
    refine ⟨a, pool, hg, ?_⟩
    unfold Client.doTracker
    rw [h]
    simp only
    exact closeAt_get? _ _ _ _ _ hg
  · intro info p i c1 w1 h
    obtain ⟨a, pool, hg⟩ := getStorageConn_conn c info fuel w p i c1 w1 h
    refine ⟨a, pool, hg, ?_⟩
    unfold Client.doStorage
    rw [h]
    simp only
    exact closeAt_get? _ _ _ _ _ hg

/-- Witness for C16 (amended): the failed tracker query on the client of one tracker. -/
theorem used_connection_returned_witness :
    ∃ a pool,
      (oneTrackerClient.getTrackerConn 1 oneBrokenWorld).2.1.trackerPools.get? 0
        = some (a, pool) ∧
      (oneTrackerClient.doTracker (trackerTask.task Util.spec) (newTrackerTask 101 [] []) 1
          oneBrokenWorld).2.2.1.trackerPools.get? 0
        = some (a, { pool with conns := pool.conns ++ [{ Conn := 0 }] }) :=
  (used_connection_returned (trackerTask.task Util.spec) (newTrackerTask 101 [] [])
    oneTrackerClient 1 oneBrokenWorld).1 { Conn := 0 } 0
    (oneTrackerClient.getTrackerConn 1 oneBrokenWorld).2.1
    (oneTrackerClient.getTrackerConn 1 oneBrokenWorld).2.2 (by decide)

/-! ## Liveness sweep -/

theorem conn_setConn_ne (w : World) (a b : Nat) (c : NetConn) (h : a ≠ b) :
    (w.setConn a c).conn b = w.conn b := by
  simp [World.conn, World.setConn, List.getElem?_set_ne h]

theorem Write_closed (conn : NetConn) (b : List Nat) : (conn.Write b).1.closed = conn.closed := by
  unfold NetConn.Write
  split <;> rfl

theorem Read_closed (conn : NetConn) (buf : List Nat) :
    (conn.Read buf).1.closed = conn.closed := by
  unfold NetConn.Read
  split
  · rfl
  · split <;> rfl

theorem RecvHeader_closed (h : header) (conn : NetConn) :
    (h.RecvHeader conn).2.1.closed = conn.closed := by
  have hr := Read_closed conn (List.replicate 10 0)
  rcases hread : conn.Read (List.replicate 10 0) with ⟨c, buf, n, e⟩
  rw [hread] at hr
  simp only [header.RecvHeader, hread]
  cases e with
  | some err => exact hr
  | none =>
    simp only
    split <;> exact hr

theorem CheckConnsProbe_frame (e : pConn) (w : World) :
    ∃ c1 : NetConn, (CheckConnsProbe e w).1 = w.setConn e.Conn c1 ∧
      c1.closed = (w.conn e.Conn).closed := by
  unfold CheckConnsProbe
  simp only [ProtoCmdActiveTest, TrackerProtoCmdResp]
  have hwc := Write_closed (w.conn e.Conn)
  rcases hs : ({ pkgLen := 0, cmd := 111, status := 0 } : header).SendHeader (w.conn e.Conn)
    with ⟨c1, e1⟩
  have hc1 : c1.closed = (w.conn e.Conn).closed := by
    have := SendHeader_eq { pkgLen := 0, cmd := 111, status := 0 } (w.conn e.Conn)
    rw [hs] at this
    have h2 := hwc (putUint64 (uint64 (0 : Int)) ++ [byte (111 : Int), byte (0 : Int)])
    rw [← this] at h2
    exact h2
  cases e1 with
  | some err => exact ⟨c1, rfl, hc1⟩
  | none =>
    simp only
    have hrc := RecvHeader_closed { pkgLen := 0, cmd := 111, status := 0 } c1
    rcases hr : ({ pkgLen := 0, cmd := 111, status := 0 } : header).RecvHeader c1
      with ⟨h2, c2, e2⟩
    rw [hr] at hrc
    simp only at hrc
    cases e2 with
    | some err => exact ⟨c2, rfl, hrc.trans hc1⟩
    | none =>
      simp only
      by_cases hk : h2.cmd ≠ 100 ∨ h2.status ≠ 0
      · simp only [hk, if_true]
        exact ⟨c2, rfl, hrc.trans hc1⟩
      · simp only [hk, if_false]
        exact ⟨c2, rfl, hrc.trans hc1⟩

theorem conn_setConn_closed (w : World) (a : Nat) (c1 : NetConn)
    (hc : c1.closed = (w.conn a).closed) (b : Nat) :
    ((w.setConn a c1).conn b).closed = (w.conn b).closed := by
  by_cases hab : a = b
  · subst hab
    by_cases hlt : a < w.net.length
    · have h1 : (w.setConn a c1).conn a = c1 := by
        simp [World.conn, World.setConn, List.getElem?_set_self hlt]
      rw [h1, hc]
    · have h1 : (w.setConn a c1).conn a = w.conn a := by
        simp [World.conn, World.setConn, List.getElem?_set, hlt]
        rw [List.getElem?_eq_none (by omega)]
        rfl
      rw [h1]
  · rw [conn_setConn_ne w a b c1 hab]

theorem CheckConnsLoop_frame (l : List pConn) (count : Int) (w : World) :
    (∀ a, (∀ e ∈ l, e.Conn ≠ a) → (CheckConnsLoop l count w).2.2.conn a = w.conn a) ∧
    (∀ a, ((CheckConnsLoop l count w).2.2.conn a).closed = (w.conn a).closed) ∧
    (CheckConnsLoop l count w).2.2.dials = w.dials ∧
    (CheckConnsLoop l count w).2.2.net.length = w.net.length := by
  induction l generalizing count w with
  | nil => simp [CheckConnsLoop]
  | cons e next ih =>
    obtain ⟨c1, hw1, hcl⟩ := CheckConnsProbe_frame e w
    unfold CheckConnsLoop
    rcases hp : CheckConnsProbe e w with ⟨w1, keep⟩
    rw [hp] at hw1
    simp only at hw1
    have key : ∀ cnt : Int,
        (∀ a, (∀ x ∈ e :: next, x.Conn ≠ a) → (CheckConnsLoop next cnt w1).2.2.conn a = w.conn a) ∧
        (∀ a, ((CheckConnsLoop next cnt w1).2.2.conn a).closed = (w.conn a).closed) ∧
        (CheckConnsLoop next cnt w1).2.2.dials = w.dials ∧
        (CheckConnsLoop next cnt w1).2.2.net.length = w.net.length := by
      intro cnt
      obtain ⟨h1, h2, h3, h4⟩ := ih cnt w1
      refine ⟨?_, ?_, ?_, ?_⟩
      · intro a ha
        rw [h1 a (fun x hx => ha x (List.mem_cons_of_mem _ hx)), hw1]
        exact conn_setConn_ne w e.Conn a c1 (ha e (List.mem_cons_self _ _))
      · intro a
        rw [h2 a, hw1]
        exact conn_setConn_closed w e.Conn c1 hcl a
      · rw [h3, hw1]
        rfl
      · rw [h4, hw1]
        simp [World.setConn]
    cases keep with
    | false => exact key (count - 1)
    | true =>
      simp only
      have := key count
      rcases hl : CheckConnsLoop next count w1 with ⟨kept, cnt, w2⟩
      rw [hl] at this
      exact this

/-- C17 (failing input): the one idle connection answers the probe with nine bytes (eight
zeros and 100) and no error, so no complete response header with status 0 arrives; the sweep
writes the active-test header `00 00 00 00 00 00 00 00 6f 00` to it and keeps it in the idle
list, with `count` unchanged. -/
theorem CheckConns_keeps_short_answer :
    probeAnswered NetConn.shortAnswer = false ∧
    (connPool.CheckConns { conns := [{ Conn := 0 }], addr := [], maxConns := 5, count := 1 }
        { net := [NetConn.shortAnswer], dials := [] }).1
      = { conns := [{ Conn := 0 }], addr := [], maxConns := 5, count := 1 } ∧
    ((connPool.CheckConns { conns := [{ Conn := 0 }], addr := [], maxConns := 5, count := 1 }
        { net := [NetConn.shortAnswer], dials := [] }).2.conn 0).sent
      = [[0, 0, 0, 0, 0, 0, 0, 0, 111, 0]] ∧
    ((connPool.CheckConns { conns := [{ Conn := 0 }], addr := [], maxConns := 5, count := 1 }
        { net := [NetConn.shortAnswer], dials := [] }).2.conn 0).incoming = [] := by
  decide

/-- C18 (failing input): on a pool with an empty idle list, `count = 5 < maxConns = 10` and
a network where every dial fails, `get` is still in its loop after any number of rounds and
never returns an error; and when the first dial fails and the second succeeds it returns
the new connection with no error. -/
theorem get_retries_failed_dial :
    (∀ fuel : Nat,
      connPool.get fuel { conns := [], addr := [], maxConns := 10, count := 5 }
          { net := [], dials := [] }
        = (none, { conns := [], addr := [], maxConns := 10, count := 5 },
           { net := [], dials := [] })) ∧
    connPool.get 3 { conns := [], addr := [], maxConns := 10, count := 5 }
        { net := [], dials := [none, some NetConn.fresh] }
      = (some (some { Conn := 0 }, none),
         { conns := [], addr := [], maxConns := 10, count := 6 },
         { net := [NetConn.fresh], dials := [] }) := by
  constructor
  · intro fuel
    induction fuel with
    | zero => rfl
    | succ n ih =>
      unfold connPool.get
      simp only [connPool.makeConn]
      have : ¬ ((5 : Int) ≥ 10) := by decide
      simp only [this, if_false]
      exact ih
  · decide

/-- C19 (counterexample): the sweep evicts the idle connections 1 (write refused) and 2
(wrong command) and their transports are not closed afterwards. -/
theorem evicted_transport_left_open :
    (sweepPool.CheckConns sweepWorld).1.conns = [{ Conn := 0 }] ∧
    ((sweepPool.CheckConns sweepWorld).2.conn 1).closed = false ∧
    ((sweepPool.CheckConns sweepWorld).2.conn 2).closed = false := by
  decide

/-- C19 (amended): `CheckConns` closes no transport: every transport, that of an evicted
connection included, is as open or closed after the sweep as it was before. -/
theorem CheckConns_closes_nothing (c : connPool) (w : World) (a : Nat) :
    ((c.CheckConns w).2.conn a).closed = (w.conn a).closed := by
  have hfr := CheckConnsLoop_frame c.conns c.count w
  unfold connPool.CheckConns
  rcases hl : CheckConnsLoop c.conns c.count w with ⟨kept, cnt, w2⟩
  rw [hl] at hfr
  exact hfr.2.1 a

/-! ## Request framing -/

theorem fillArray_length (g : List Nat) (hg : g.length ≤ 16) :
    ∃ field, fillArray 16 g = some field ∧ field.length = 16 ∧
      field = g ++ List.replicate (16 - g.length) 0 := by
  refine ⟨g ++ List.replicate (16 - g.length) 0, ?_, ?_, rfl⟩
  · simp [fillArray, hg]
  · simp only [List.length_append, List.length_replicate]
    omega

theorem Framed_of_two_writes (conn : NetConn) (v : Nat) (c s : Nat) (payload : List Nat)
    (hv : (v : Int) < 9223372036854775808) (hp : payload.length = v) :
    Framed conn ((conn.Write (putUint64 v ++ [c, s])).1.Write payload).1 (v : Int) := by
  refine ⟨putUint64 v ++ [c, s], [payload], ?_, ?_, ?_, ?_⟩
  · rw [Write_sent, Write_sent]
    simp
  · simp [putUint64]
  · rw [getUint64_putUint64 v (by omega)]
    unfold int64
    split <;> omega
  · simp [hp]

theorem uint64_natCast (n : Nat) (h : (n : Int) < 9223372036854775808) :
    uint64 (n : Int) = n := by
  unfold uint64
  omega

theorem int64_natCast (n : Nat) (h : (n : Int) < 9223372036854775808) :
    int64 n = (n : Int) := by
  unfold int64
  split <;> omega

theorem delete_SendReq_eq (s : storageDeleteTask) (conn : NetConn)
    (hg : s.groupName.length ≤ 16)
    (hf : (s.remoteFilename.length : Int) + 16 < 9223372036854775808)
    (hw : ∀ x ∈ conn.writeErrs.take 2, x = none) :
    s.SendReq conn
      = some ({ s with cmd := 12, pkgLen := (s.remoteFilename.length : Int) + 16 },
          ((conn.Write (putUint64 (s.remoteFilename.length + 16) ++ [12, byte s.status])).1.Write
            (s.groupName ++ List.replicate (16 - s.groupName.length) 0
              ++ s.remoteFilename)).1, none) := by
  have hu : uint64 ((s.remoteFilename.length : Int) + 16) = s.remoteFilename.length + 16 :=
    uint64_natCast (s.remoteFilename.length + 16) (by push_cast; omega)
  have hi : int64 (s.remoteFilename.length + 16) = (s.remoteFilename.length : Int) + 16 := by
    rw [int64_natCast _ (by push_cast; omega)]
    push_cast
    rfl
  have hb12 : byte 12 = 12 := by decide
  obtain ⟨field, hfill, _, hfield⟩ := fillArray_length s.groupName hg
  simp only [storageDeleteTask.SendReq, StorageProtoCmdDeleteFile, SendHeader_eq, hu, hi, hb12,
    hfill]
  obtain ⟨hw1, hr1⟩ := Write_of_take conn
    (putUint64 (s.remoteFilename.length + 16) ++ [12, byte s.status]) 1 hw
  rcases hc1 : conn.Write (putUint64 (s.remoteFilename.length + 16) ++ [12, byte s.status])
    with ⟨c1, e1⟩
  rw [hc1] at hw1 hr1
  simp only at hw1 hr1
  subst hw1
  simp only
  obtain ⟨hw2, _⟩ := Write_of_take c1 (field ++ s.remoteFilename) 0 hr1
  rcases hc2 : c1.Write (field ++ s.remoteFilename) with ⟨c2, e2⟩
  rw [hc2] at hw2
  simp only at hw2
  subst hw2
  simp only [← hfield, hc2]

theorem download_SendReq_eq (s : storageDownloadTask) (conn : NetConn)
    (hg : s.groupName.length ≤ 16)
    (hf : (s.remoteFilename.length : Int) + 32 < 9223372036854775808)
    (hw : ∀ x ∈ conn.writeErrs.take 2, x = none) :
    s.SendReq conn
      = some ({ s with cmd := 14, pkgLen := (s.remoteFilename.length : Int) + 32 },
          ((conn.Write (putUint64 (s.remoteFilename.length + 32) ++ [14, byte s.status])).1.Write
            (putUint64 (uint64 s.offset) ++ putUint64 (uint64 s.downloadBytes)
              ++ (s.groupName ++ List.replicate (16 - s.groupName.length) 0)
              ++ s.remoteFilename)).1, none) := by
  have hu : uint64 ((s.remoteFilename.length : Int) + 32) = s.remoteFilename.length + 32 :=
    uint64_natCast (s.remoteFilename.length + 32) (by push_cast; omega)
  have hi : int64 (s.remoteFilename.length + 32) = (s.remoteFilename.length : Int) + 32 := by
    rw [int64_natCast _ (by push_cast; omega)]
    push_cast
    rfl
  have hb14 : byte 14 = 14 := by decide
  obtain ⟨field, hfill, _, hfield⟩ := fillArray_length s.groupName hg
  simp only [storageDownloadTask.SendReq, StorageProtoCmdDownloadFile, SendHeader_eq, hu, hi,
    hb14, hfill]
  obtain ⟨hw1, hr1⟩ := Write_of_take conn
    (putUint64 (s.remoteFilename.length + 32) ++ [14, byte s.status]) 1 hw
  rcases hc1 : conn.Write (putUint64 (s.remoteFilename.length + 32) ++ [14, byte s.status])
    with ⟨c1, e1⟩
  rw [hc1] at hw1 hr1
  simp only at hw1 hr1
  subst hw1
  simp only
  obtain ⟨hw2, _⟩ := Write_of_take c1 (putUint64 (uint64 s.offset)
    ++ putUint64 (uint64 s.downloadBytes) ++ field ++ s.remoteFilename) 0 hr1
  rcases hc2 : c1.Write (putUint64 (uint64 s.offset) ++ putUint64 (uint64 s.downloadBytes)
    ++ field ++ s.remoteFilename) with ⟨c2, e2⟩
  rw [hc2] at hw2
  simp only at hw2
  subst hw2
  simp only [← hfield, hc2]

theorem tracker_SendReq_eq (t : trackerTask) (conn : NetConn) (hne : t.groupName ≠ [])
    (hg : t.groupName.length ≤ 16)
    (hf : 16 + (t.remoteFilename.length : Int) < 9223372036854775808)
    (hw : ∀ x ∈ conn.writeErrs.take 2, x = none) :
    t.SendReq conn
      = some ({ t with pkgLen := 16 + (t.remoteFilename.length : Int) },
          ((conn.Write (putUint64 (16 + t.remoteFilename.length)
              ++ [byte t.cmd, byte t.status])).1.Write
            (t.groupName ++ List.replicate (16 - t.groupName.length) 0
              ++ t.remoteFilename)).1, none) := by
  have hu : uint64 (16 + (t.remoteFilename.length : Int)) = 16 + t.remoteFilename.length :=
    uint64_natCast (16 + t.remoteFilename.length) (by push_cast; omega)
  have hi : int64 (16 + t.remoteFilename.length) = 16 + (t.remoteFilename.length : Int) := by
    rw [int64_natCast _ (by push_cast; omega)]
    push_cast
    rfl
  obtain ⟨field, hfill, _, hfield⟩ := fillArray_length t.groupName hg
  simp only [trackerTask.SendReq, GroupNameMaxLen, SendHeader_eq, hu, hi, hfill, hne, ne_eq,
    not_false_eq_true, if_true]
  obtain ⟨hw1, hr1⟩ := Write_of_take conn
    (putUint64 (16 + t.remoteFilename.length) ++ [byte t.cmd, byte t.status]) 1 hw
  rcases hc1 : conn.Write (putUint64 (16 + t.remoteFilename.length)
    ++ [byte t.cmd, byte t.status]) with ⟨c1, e1⟩
  rw [hc1] at hw1 hr1
  simp only at hw1 hr1
  subst hw1
  simp only
  obtain ⟨hw2, _⟩ := Write_of_take c1 (field ++ t.remoteFilename) 0 hr1
  rcases hc2 : c1.Write (field ++ t.remoteFilename) with ⟨c2, e2⟩
  rw [hc2] at hw2
  simp only at hw2
  subst hw2
  simp only [← hfield, hc2]

theorem tracker_SendReq_no_group_eq (t : trackerTask) (conn : NetConn) (he : t.groupName = [])
    (hw : ∀ x ∈ conn.writeErrs.take 1, x = none) :
    t.SendReq conn
      = some (t, (conn.Write (putUint64 (uint64 t.pkgLen) ++ [byte t.cmd, byte t.status])).1,
          none) := by
  simp only [trackerTask.SendReq, he, ne_eq, not_true_eq_false, if_false, SendHeader_eq]
  obtain ⟨hw1, _⟩ := Write_of_take conn
    (putUint64 (uint64 t.pkgLen) ++ [byte t.cmd, byte t.status]) 0 hw
  rcases hc1 : conn.Write (putUint64 (uint64 t.pkgLen) ++ [byte t.cmd, byte t.status])
    with ⟨c1, e1⟩
  rw [hc1] at hw1
  simp only at hw1
  subst hw1
  rfl

theorem take_le_none {α : Type} (l : List (Option α)) (m n : Nat) (hmn : m ≤ n)
    (h : ∀ x ∈ l.take n, x = none) : ∀ x ∈ l.take m, x = none := by
  intro x hx
  apply h x
  have : l.take m = (l.take n).take m := by
    rw [List.take_take, Nat.min_eq_left hmn]
  rw [this] at hx
  exact List.mem_of_mem_take hx

/-- C20: on a connection that accepts the writes, each `SendReq` returns no error and what
it wrote is one frame: a ten-byte header whose `pkgLen` is the number of bytes written after
it; that number is 0 for the tracker query without group (task built with `pkgLen = 0`),
`16 + len(filename)` for the tracker query with a group and for the delete task,
`32 + len(filename)` for the download task and `15 + len(buffer)` for the upload from a
buffer (group names of at most 16 bytes, lengths within `int64`). -/
theorem request_framing (conn : NetConn) (hw : ∀ x ∈ conn.writeErrs.take 3, x = none) :
    (∀ t : trackerTask, t.groupName = [] → t.pkgLen = 0 →
      ∃ t1 conn1, t.SendReq conn = some (t1, conn1, none) ∧ Framed conn conn1 0 ∧
        t1.pkgLen = 0) ∧
    (∀ t : trackerTask, t.groupName ≠ [] → t.groupName.length ≤ 16 →
      16 + (t.remoteFilename.length : Int) < 9223372036854775808 →
      ∃ t1 conn1, t.SendReq conn = some (t1, conn1, none) ∧
        Framed conn conn1 (16 + (t.remoteFilename.length : Int)) ∧
        t1.pkgLen = 16 + (t.remoteFilename.length : Int)) ∧
    (∀ s : storageDownloadTask, s.groupName.length ≤ 16 →
      (s.remoteFilename.length : Int) + 32 < 9223372036854775808 →
      ∃ s1 conn1, s.SendReq conn = some (s1, conn1, none) ∧
        Framed conn conn1 (32 + (s.remoteFilename.length : Int)) ∧
        s1.pkgLen = 32 + (s.remoteFilename.length : Int)) ∧
    (∀ s : storageDeleteTask, s.groupName.length ≤ 16 →
      (s.remoteFilename.length : Int) + 16 < 9223372036854775808 →
      ∃ s1 conn1, s.SendReq conn = some (s1, conn1, none) ∧
        Framed conn conn1 (16 + (s.remoteFilename.length : Int)) ∧
        s1.pkgLen = 16 + (s.remoteFilename.length : Int)) ∧
    (∀ (fs : List Nat → Except GoError File) (b e fid : List Nat) (p : Int) (h0 : header),
      (b.length : Int) + 15 < 9223372036854775808 → h0.status = 0 →
      ∃ fi s1 conn1, newFileInfo fs [] b e = (some fi, none) ∧
        ({ toheader := h0, fileInfo := fi, storagePathIndex := p, fileID := fid } :
          storageUploadTask).SendReq conn = some (s1, conn1, none) ∧
        Framed conn conn1 (15 + (b.length : Int)) ∧
        s1.pkgLen = 15 + (b.length : Int)) := by
  have hw2 := take_le_none conn.writeErrs 2 3 (by decide) hw
  have hw1 := take_le_none conn.writeErrs 1 3 (by decide) hw
  refine ⟨?_, ?_, ?_, ?_, ?_⟩
  · intro t he hp
    refine ⟨_, _, tracker_SendReq_no_group_eq t conn he hw1, ?_, hp⟩
    refine ⟨putUint64 (uint64 t.pkgLen) ++ [byte t.cmd, byte t.status], [], ?_, ?_, ?_, ?_⟩
    · rw [Write_sent]
    · simp [putUint64]
    · rw [getUint64_putUint64 _ (uint64_lt _), hp]
      decide
    · simp
  · intro t hne hg hf
    refine ⟨_, _, tracker_SendReq_eq t conn hne hg hf hw2, ?_, rfl⟩
    have := Framed_of_two_writes conn (16 + t.remoteFilename.length) (byte t.cmd)
      (byte t.status)
      (t.groupName ++ List.replicate (16 - t.groupName.length) 0 ++ t.remoteFilename)
      (by push_cast; omega)
      (by simp only [List.length_append, List.length_replicate]; omega)
    simpa using this
  · intro s hg hf
    refine ⟨_, _, download_SendReq_eq s conn hg hf hw2, ?_, ?_⟩
    · have := Framed_of_two_writes conn (s.remoteFilename.length + 32) 14 (byte s.status)
        (putUint64 (uint64 s.offset) ++ putUint64 (uint64 s.downloadBytes)
          ++ (s.groupName ++ List.replicate (16 - s.groupName.length) 0) ++ s.remoteFilename)
        (by push_cast; omega)
        (by simp only [List.length_append, List.length_replicate, putUint64_length]; omega)
      have hcast : ((s.remoteFilename.length + 32 : Nat) : Int)
          = 32 + (s.remoteFilename.length : Int) := by
        push_cast
        omega
      rw [hcast] at this
      exact this
    · show (s.remoteFilename.length : Int) + 32 = 32 + (s.remoteFilename.length : Int)
      omega
  · intro s hg hf
    refine ⟨_, _, delete_SendReq_eq s conn hg hf hw2, ?_, ?_⟩
    · have := Framed_of_two_writes conn (s.remoteFilename.length + 16) 12 (byte s.status)
        (s.groupName ++ List.replicate (16 - s.groupName.length) 0 ++ s.remoteFilename)
        (by push_cast; omega)
        (by simp only [List.length_append, List.length_replicate]; omega)
      have hcast : ((s.remoteFilename.length + 16 : Nat) : Int)
          = 16 + (s.remoteFilename.length : Int) := by
        push_cast
        omega
      rw [hcast] at this
      exact this
    · show (s.remoteFilename.length : Int) + 16 = 16 + (s.remoteFilename.length : Int)
      omega
  · intro fs b e fid p h0 hb hst
    refine ⟨_, _, _, newFileInfo_buffer fs b e, upload_SendReq_eq b e fid p h0 conn hb hst hw,
      ?_, ?_⟩
    · refine ⟨putUint64 (b.length + 15) ++ [11, 0],
        [[byte p] ++ putUint64 b.length
          ++ (e.take 6 ++ List.replicate (6 - (e.take 6).length) 0), b], ?_, ?_, ?_, ?_⟩
      · rw [Write_sent, Write_sent, Write_sent]
        simp
      · simp [putUint64]
      · rw [getUint64_putUint64 _ (by omega), int64_natCast _ (by push_cast; omega)]
        push_cast
        omega
      · have h6 : (e.take 6).length ≤ 6 := by simp
        simp only [List.flatten_cons, List.flatten_nil, List.length_append,
          List.length_replicate, putUint64_length, List.length_singleton, List.append_nil,
          List.length_cons, List.length_nil]
        push_cast
        omega
    · show (b.length : Int) + 15 = 15 + (b.length : Int)
      omega

/-- Witness for C20: on a fresh connection, the tracker query without group, the tracker
query and the delete and download requests for `group1` / `M00/x.jpg`, and the upload of
the buffer `01 02 03` with tag `jpg`, are frames announcing 0, 25, 25, 41 and 18 payload
bytes. -/
theorem request_framing_witness :
    (∃ t1 conn1, (newTrackerTask 101 [] []).SendReq NetConn.fresh = some (t1, conn1, none) ∧
      Framed NetConn.fresh conn1 0 ∧ t1.pkgLen = 0) ∧
    (∃ t1 conn1,
      (newTrackerTask 102 (ascii "group1") (ascii "M00/x.jpg")).SendReq NetConn.fresh
        = some (t1, conn1, none) ∧
      Framed NetConn.fresh conn1 (16 + (9 : Nat)) ∧ t1.pkgLen = 16 + (9 : Nat)) ∧
    (∃ s1 conn1,
      ({ toheader := { pkgLen := 0, cmd := 0, status := 0 }, groupName := ascii "group1",
         remoteFilename := ascii "M00/x.jpg", offset := 0, downloadBytes := 0,
         localFilename := [], buffer := none } : storageDownloadTask).SendReq NetConn.fresh
        = some (s1, conn1, none) ∧
      Framed NetConn.fresh conn1 (32 + (9 : Nat)) ∧ s1.pkgLen = 32 + (9 : Nat)) ∧
    (∃ s1 conn1,
      ({ toheader := { pkgLen := 0, cmd := 0, status := 0 }, groupName := ascii "group1",
         remoteFilename := ascii "M00/x.jpg" } : storageDeleteTask).SendReq NetConn.fresh
        = some (s1, conn1, none) ∧
      Framed NetConn.fresh conn1 (16 + (9 : Nat)) ∧ s1.pkgLen = 16 + (9 : Nat)) ∧
    (∃ fi s1 conn1,
      newFileInfo (fun _ => Except.error GoError.transport) [] [1, 2, 3] (ascii "jpg")
        = (some fi, none) ∧
      ({ toheader := { pkgLen := 0, cmd := 0, status := 0 }, fileInfo := fi,
         storagePathIndex := 0, fileID := [] } : storageUploadTask).SendReq NetConn.fresh
        = some (s1, conn1, none) ∧
      Framed NetConn.fresh conn1 (15 + (3 : Nat)) ∧ s1.pkgLen = 15 + (3 : Nat)) :=
  ⟨(request_framing NetConn.fresh (by decide)).1 (newTrackerTask 101 [] []) rfl rfl,
   (request_framing NetConn.fresh (by decide)).2.1
     (newTrackerTask 102 (ascii "group1") (ascii "M00/x.jpg")) (by decide) (by decide)
     (by decide),
   (request_framing NetConn.fresh (by decide)).2.2.1
     { toheader := { pkgLen := 0, cmd := 0, status := 0 }, groupName := ascii "group1",
       remoteFilename := ascii "M00/x.jpg", offset := 0, downloadBytes := 0,
       localFilename := [], buffer := none } (by decide) (by decide),
   (request_framing NetConn.fresh (by decide)).2.2.2.1
     { toheader := { pkgLen := 0, cmd := 0, status := 0 }, groupName := ascii "group1",
       remoteFilename := ascii "M00/x.jpg" } (by decide) (by decide),
   (request_framing NetConn.fresh (by decide)).2.2.2.2
     (fun _ => Except.error GoError.transport) [1, 2, 3] (ascii "jpg") [] 0
     { pkgLen := 0, cmd := 0, status := 0 } (by decide) rfl⟩

/-! ## Faulting request -/

/-- A tracker query with a 17-byte group name run through `doTracker`: the call ends in the
fault, the header announcing 17 payload bytes is already on the transport, `pkgLen` is set,
and the deferred `Close` has put the connection at the back of the idle list. -/
theorem doTracker_fault_after_header :
    (oneTrackerClient.doTracker (trackerTask.task Util.spec)
        (newTrackerTask 102 (ascii "aaaaaaaaaaaaaaaaa") (ascii "x")) 1
        { net := List.replicate 5 NetConn.fresh, dials := [] }).1 = Exit.fault ∧
    (oneTrackerClient.doTracker (trackerTask.task Util.spec)
        (newTrackerTask 102 (ascii "aaaaaaaaaaaaaaaaa") (ascii "x")) 1
        { net := List.replicate 5 NetConn.fresh, dials := [] }).2.1.pkgLen = 17 ∧
    ((oneTrackerClient.doTracker (trackerTask.task Util.spec)
        (newTrackerTask 102 (ascii "aaaaaaaaaaaaaaaaa") (ascii "x")) 1
        { net := List.replicate 5 NetConn.fresh, dials := [] }).2.2.2.conn 0).sent
      = [[0, 0, 0, 0, 0, 0, 0, 17, 102, 0]] ∧
    (oneTrackerClient.doTracker (trackerTask.task Util.spec)
        (newTrackerTask 102 (ascii "aaaaaaaaaaaaaaaaa") (ascii "x")) 1
        { net := List.replicate 5 NetConn.fresh, dials := [] }).2.2.1.trackerPools
      = [(ascii "t",
          { conns := [{ Conn := 1 }, { Conn := 2 }, { Conn := 3 }, { Conn := 4 }, { Conn := 0 }],
            addr := ascii "t", maxConns := 5, count := 5 })] := by
  decide

end fdfs
